import Mathlib

/-!
# hidapi (Windows back end, `hid.cpp`): the device table and its operations

A shallow embedding of `src/hidapi/hid.cpp`.  The global table
`static Device devices[MAX_DEVICES]` and the flag `devices_initialized`
form the state; every exported function is a Lean function from the state
before the call (and the answers the operating system gives during the call)
to the returned value, the state after the call, the list of operating-system
calls it issued, and the slots for which `register_error` ran.
-/

namespace Hid

/-! ## Data model -/

/-- Wide strings (`wchar_t *`, `LPTSTR`): the code units in memory order. -/
abbrev WString := List Nat

/-- Windows `HANDLE`, compared only for equality. -/
abbrev HANDLE := Int

/-- The sentinel `INVALID_HANDLE_VALUE`, which is `(HANDLE)-1`. -/
def INVALID_HANDLE_VALUE : HANDLE := -1

/-- The constant `#define MAX_DEVICES 64`. -/
abbrev MAX_DEVICES : Nat := 64

/-- The record `struct Device`.  `last_error` is a pointer to a message
allocated by `FormatMessage`; `none` is `NULL`. -/
structure Device where
  valid : Int
  device_handle : HANDLE
  last_error : Option WString
  deriving DecidableEq, Repr

/-- The two file-scope statics of `hid.cpp`. -/
structure State where
  devices : Fin MAX_DEVICES → Device
  devices_initialized : Int

/-- The Win32 / SetupAPI / HID calls the file makes (C-runtime calls such as
`printf`, `malloc`, `free` and `memset` are not recorded).  `CreateFile`
carries the handle it returned. -/
inductive OsCall where
  | SetupDiGetClassDevs
  | SetupDiEnumDeviceInterfaces (device_index : Nat)
  | SetupDiGetDeviceInterfaceDetail
  | CreateFile (result : HANDLE)
  | CloseHandle (h : HANDLE)
  | HidD_GetAttributes (h : HANDLE)
  | HidD_GetSerialNumberString (h : HANDLE)
  | HidD_GetManufacturerString (h : HANDLE)
  | HidD_GetProductString (h : HANDLE)
  | HidD_GetIndexedString (h : HANDLE) (string_index : Int)
  | WriteFile (h : HANDLE)
  | ReadFile (h : HANDLE)
  | GetLastError
  | FormatMessage
  | LocalFree (p : Option WString)
  deriving DecidableEq, Repr

/-- What a call leaves behind: the returned value, the table afterwards, the
operating-system calls issued (in order) and the slots for which
`register_error` was invoked (in order). -/
structure Result (α : Type) where
  ret : α
  state : State
  calls : List OsCall
  errs : List (Fin MAX_DEVICES)

/-! ## Answers of the operating system -/

/-- One device interface reported by `SetupDiEnumDeviceInterfaces`, with the
answers the system gives while `hid_open` inspects it. -/
structure Candidate where
  /-- result of the second `SetupDiGetDeviceInterfaceDetail` call -/
  detail_res : Bool
  /-- value returned by `CreateFile` -/
  write_handle : HANDLE
  /-- `attrib.VendorID` after `HidD_GetAttributes` -/
  VendorID : Nat
  /-- `attrib.ProductID` after `HidD_GetAttributes` -/
  ProductID : Nat
  /-- result of `HidD_GetSerialNumberString` -/
  serial_res : Bool
  /-- contents of the buffer `ser` after `HidD_GetSerialNumberString` -/
  ser : WString
  /-- value of `msg` after `FormatMessage`, should `register_error` run while
  this candidate is inspected (`none` when `FormatMessage` leaves it `NULL`) -/
  msg : Option WString
  deriving DecidableEq, Repr

/-- Answers during one `hid_open`: the device-information set and the device
interfaces it enumerates, in enumeration order. -/
structure OpenOs where
  device_info_set : HANDLE
  candidates : List Candidate
  deriving DecidableEq, Repr

/-- Answers during one `hid_write` / `hid_read`: the `BOOL` result, the
`DWORD` stored through `&bytes_read`, and `msg` after `FormatMessage`. -/
structure IoOs where
  res : Bool
  bytes_read : Nat
  msg : Option WString
  deriving DecidableEq, Repr

/-- Answers during one string getter: the `BOOL` result of the `HidD_Get…`
call and `msg` after `FormatMessage`. -/
structure StrOs where
  res : Bool
  msg : Option WString
  deriving DecidableEq, Repr

/-! ## The code -/

/-- The array index `devices[device]`; it is evaluated only after the range
check `device < 0 || device >= MAX_DEVICES` failed, where it is `device`. -/
def slotOf (device : Int) : Fin MAX_DEVICES :=
  ⟨device.toNat % MAX_DEVICES, Nat.mod_lt _ (by decide)⟩

/-- Conversion of a `DWORD` to the `int` the function returns. -/
def int_of_DWORD (n : Nat) : Int :=
  if n % 2 ^ 32 < 2 ^ 31 then ((n % 2 ^ 32 : Nat) : Int) else ((n % 2 ^ 32 : Nat) : Int) - 2 ^ 32

/-- The C library `wcscmp` on two null-terminated wide strings; memory past
the end of a list reads as the terminator. -/
def wcscmp : WString → WString → Int
  | [], [] => 0
  | [], b :: _ => if b = 0 then 0 else -1
  | a :: _, [] => if a = 0 then 0 else 1
  | a :: as, b :: bs =>
    if a < b then -1 else if b < a then 1 else if a = 0 then 0 else wcscmp as bs

/-- `register_error(device, op)`: `msg` is what `FormatMessage` stored; the old
message is released and the new pointer stored. -/
def register_error (device : Device) (_op : String) (msg : Option WString) :
    Device × List OsCall :=
  ({ device with last_error := msg },
   [OsCall.GetLastError, OsCall.FormatMessage, OsCall.LocalFree device.last_error])

/-- State of the enumeration loop of `hid_open` when it is left: the claimed
slot `*dev`, the calls issued and how often `register_error` ran. -/
structure Scan where
  dev : Device
  calls : List OsCall
  nerrs : Nat
  deriving DecidableEq, Repr

/-- The loop `for (;;)` of `hid_open` (lines 110-222), from `device_index` on,
over the interfaces still to be enumerated. -/
def scan (vendor_id product_id : Nat) (serial_number : Option WString) :
    Device → Nat → List Candidate → Scan
  | dev, device_index, [] =>
    -- SetupDiEnumDeviceInterfaces returns FALSE: no more devices
    ⟨dev, [OsCall.SetupDiEnumDeviceInterfaces device_index], 0⟩
  | dev, device_index, c :: rest =>
    let enum := [OsCall.SetupDiEnumDeviceInterfaces device_index,
                 OsCall.SetupDiGetDeviceInterfaceDetail,
                 OsCall.SetupDiGetDeviceInterfaceDetail]
    if c.detail_res = false then
      let r := scan vendor_id product_id serial_number dev (device_index + 1) rest
      ⟨r.dev, enum ++ r.calls, r.nerrs⟩
    else
      let opened := enum ++ [OsCall.CreateFile c.write_handle]
      if c.write_handle = INVALID_HANDLE_VALUE then
        let e := register_error dev "CreateFile" c.msg
        let r := scan vendor_id product_id serial_number e.1 (device_index + 1) rest
        ⟨r.dev, opened ++ e.2 ++ [OsCall.CloseHandle c.write_handle] ++ r.calls, r.nerrs + 1⟩
      else
        let attr := opened ++ [OsCall.HidD_GetAttributes c.write_handle]
        if c.VendorID = vendor_id ∧ c.ProductID = product_id then
          match serial_number with
          | some serial_number =>
            let q := attr ++ [OsCall.HidD_GetSerialNumberString c.write_handle]
            if c.serial_res = false then
              let e := register_error dev "HidD_GetSerialNumberString" c.msg
              let r := scan vendor_id product_id (some serial_number) e.1 (device_index + 1) rest
              ⟨r.dev, q ++ e.2 ++ r.calls, r.nerrs + 1⟩
            else if wcscmp c.ser serial_number = 0 then
              ⟨{ dev with device_handle := c.write_handle }, q, 0⟩
            else
              let r := scan vendor_id product_id (some serial_number) dev (device_index + 1) rest
              ⟨r.dev, q ++ r.calls, r.nerrs⟩
          | none =>
            ⟨{ dev with device_handle := c.write_handle }, attr, 0⟩
        else
          let r := scan vendor_id product_id serial_number dev (device_index + 1) rest
          ⟨r.dev, attr ++ [OsCall.CloseHandle c.write_handle] ++ r.calls, r.nerrs⟩

/-- The initialisation loop of `hid_open` (lines 81-89). -/
def init_devices (s : State) : State :=
  if s.devices_initialized = 0 then
    { devices := fun _ => ⟨0, INVALID_HANDLE_VALUE, none⟩, devices_initialized := 1 }
  else s

/-- The loop "find an available handle to use" (lines 92-99): the first index
whose `valid` is `0`. -/
def find_available (devices : Fin MAX_DEVICES → Device) : Option (Fin MAX_DEVICES) :=
  (List.finRange MAX_DEVICES).find? (fun i => decide ((devices i).valid = 0))

/-- The function `hid_open(vendor_id, product_id, serial_number)`. -/
def hid_open (s : State) (vendor_id product_id : Nat) (serial_number : Option WString)
    (os : OpenOs) : Result Int :=
  let s1 := init_devices s
  match find_available s1.devices with
  | none => ⟨-1, s1, [], []⟩
  | some i =>
    let claimed : Device := { s1.devices i with valid := 1 }
    let r := scan vendor_id product_id serial_number claimed 0 os.candidates
    let calls := [OsCall.SetupDiGetClassDevs] ++ r.calls ++ [OsCall.CloseHandle os.device_info_set]
    let errs := List.replicate r.nerrs i
    if r.dev.device_handle ≠ INVALID_HANDLE_VALUE then
      ⟨(i.val : Int), { s1 with devices := Function.update s1.devices i r.dev }, calls, errs⟩
    else
      ⟨-1, { s1 with devices := Function.update s1.devices i { r.dev with valid := 0 } },
        calls, errs⟩

/-- The function `hid_write(device, data, length)`. -/
def hid_write (s : State) (device : Int) (os : IoOs) : Result Int :=
  if device < 0 ∨ device ≥ MAX_DEVICES then ⟨-1, s, [], []⟩
  else if (s.devices (slotOf device)).valid = 0 then ⟨-1, s, [], []⟩
  else
    let dev := s.devices (slotOf device)
    if os.res = false then
      let e := register_error dev "WriteFile" os.msg
      ⟨-1, { s with devices := Function.update s.devices (slotOf device) e.1 },
        OsCall.WriteFile dev.device_handle :: e.2, [slotOf device]⟩
    else
      ⟨int_of_DWORD os.bytes_read, s, [OsCall.WriteFile dev.device_handle], []⟩

/-- The function `hid_read(device, data, length)`. -/
def hid_read (s : State) (device : Int) (os : IoOs) : Result Int :=
  if device < 0 ∨ device ≥ MAX_DEVICES then ⟨-1, s, [], []⟩
  else if (s.devices (slotOf device)).valid = 0 then ⟨-1, s, [], []⟩
  else
    let dev := s.devices (slotOf device)
    if os.res = false then
      let e := register_error dev "ReadFile" os.msg
      ⟨-1, { s with devices := Function.update s.devices (slotOf device) e.1 },
        OsCall.ReadFile dev.device_handle :: e.2, [slotOf device]⟩
    else
      ⟨int_of_DWORD os.bytes_read, s, [OsCall.ReadFile dev.device_handle], []⟩

/-- The function `hid_close(device)`. -/
def hid_close (s : State) (device : Int) : Result Unit :=
  if device < 0 ∨ device ≥ MAX_DEVICES then ⟨(), s, [], []⟩
  else if (s.devices (slotOf device)).valid = 0 then ⟨(), s, [], []⟩
  else
    let dev := s.devices (slotOf device)
    ⟨(), { s with devices := Function.update s.devices (slotOf device)
                    { dev with device_handle := INVALID_HANDLE_VALUE, valid := 0 } },
      [OsCall.CloseHandle dev.device_handle], []⟩

/-- Common body of the four string getters: range and validity checks, the
`HidD_Get…` call `query`, `register_error` on failure. -/
def get_string (s : State) (device : Int) (query : HANDLE → OsCall) (op : String)
    (os : StrOs) : Result Int :=
  if device < 0 ∨ device ≥ MAX_DEVICES then ⟨-1, s, [], []⟩
  else if (s.devices (slotOf device)).valid = 0 then ⟨-1, s, [], []⟩
  else
    let dev := s.devices (slotOf device)
    if os.res = false then
      let e := register_error dev op os.msg
      ⟨-1, { s with devices := Function.update s.devices (slotOf device) e.1 },
        query dev.device_handle :: e.2, [slotOf device]⟩
    else
      ⟨0, s, [query dev.device_handle], []⟩

/-- The function `hid_get_manufacturer_string(device, string, maxlen)`. -/
def hid_get_manufacturer_string (s : State) (device : Int) (os : StrOs) : Result Int :=
  get_string s device OsCall.HidD_GetManufacturerString "HidD_GetManufacturerString" os

/-- The function `hid_get_product_string(device, string, maxlen)`. -/
def hid_get_product_string (s : State) (device : Int) (os : StrOs) : Result Int :=
  get_string s device OsCall.HidD_GetProductString "HidD_GetProductString" os

/-- The function `hid_get_serial_number_string(device, string, maxlen)`. -/
def hid_get_serial_number_string (s : State) (device : Int) (os : StrOs) : Result Int :=
  get_string s device OsCall.HidD_GetSerialNumberString "HidD_GetSerialNumberString" os

/-- The function `hid_get_indexed_string(device, string_index, string, maxlen)`. -/
def hid_get_indexed_string (s : State) (device : Int) (string_index : Int) (os : StrOs) :
    Result Int :=
  get_string s device (fun h => OsCall.HidD_GetIndexedString h string_index)
    "HidD_GetIndexedString" os

/-- The function `hid_error(device)`; `none` is `NULL`. -/
def hid_error (s : State) (device : Int) : Option WString :=
  if device < 0 ∨ device ≥ MAX_DEVICES then none
  else if (s.devices (slotOf device)).valid = 0 then none
  else (s.devices (slotOf device)).last_error

/-! ## Sequences of calls -/

/-- What a call of the interface returns: an `int`, nothing, or a message
pointer. -/
inductive Ret where
  | int (n : Int)
  | void
  | ptr (p : Option WString)
  deriving DecidableEq, Repr

/-- One call of the exported interface together with the answers the operating
system gives during it. -/
inductive Op where
  | hid_open (vendor_id product_id : Nat) (serial_number : Option WString) (os : OpenOs)
  | hid_write (device : Int) (os : IoOs)
  | hid_read (device : Int) (os : IoOs)
  | hid_close (device : Int)
  | hid_get_manufacturer_string (device : Int) (os : StrOs)
  | hid_get_product_string (device : Int) (os : StrOs)
  | hid_get_serial_number_string (device : Int) (os : StrOs)
  | hid_get_indexed_string (device : Int) (string_index : Int) (os : StrOs)
  | hid_error (device : Int)
  deriving DecidableEq, Repr

/-- Change the type of the returned value of a result. -/
def Result.as {α β : Type} (f : α → β) (r : Result α) : Result β :=
  ⟨f r.ret, r.state, r.calls, r.errs⟩

/-- Perform one call. -/
def exec (s : State) : Op → Result Ret
  | .hid_open v p sn os => (hid_open s v p sn os).as Ret.int
  | .hid_write d os => (hid_write s d os).as Ret.int
  | .hid_read d os => (hid_read s d os).as Ret.int
  | .hid_close d => (hid_close s d).as (fun _ => Ret.void)
  | .hid_get_manufacturer_string d os => (hid_get_manufacturer_string s d os).as Ret.int
  | .hid_get_product_string d os => (hid_get_product_string s d os).as Ret.int
  | .hid_get_serial_number_string d os => (hid_get_serial_number_string s d os).as Ret.int
  | .hid_get_indexed_string d k os => (hid_get_indexed_string s d k os).as Ret.int
  | .hid_error d => ⟨Ret.ptr (hid_error s d), s, [], []⟩

/-- The table after a sequence of calls. -/
def run (s : State) : List Op → State
  | [] => s
  | op :: ops => run (exec s op).state ops

/-- The slots for which `register_error` ran during a sequence of calls. -/
def errsOf (s : State) : List Op → List (Fin MAX_DEVICES)
  | [] => []
  | op :: ops => (exec s op).errs ++ errsOf (exec s op).state ops

/-- The handle a call returns when it is a successful `hid_open`. -/
def openedAt (s : State) : Op → List Int
  | .hid_open v p sn os =>
    if 0 ≤ (hid_open s v p sn os).ret then [(hid_open s v p sn os).ret] else []
  | _ => []

/-- The handles returned by the successful `hid_open` calls of a sequence. -/
def openedBy (s : State) : List Op → List Int
  | [] => []
  | op :: ops => openedAt s op ++ openedBy (exec s op).state ops

/-- The operating-system calls issued during a sequence of calls. -/
def callsOf (s : State) : List Op → List OsCall
  | [] => []
  | op :: ops => (exec s op).calls ++ callsOf (exec s op).state ops

/-- The table when the program starts: statics are zero-initialised. -/
def boot : State :=
  { devices := fun _ => ⟨0, 0, none⟩, devices_initialized := 0 }

/-! ## Vocabulary of the specification -/

/-- The string a null-terminated buffer holds: the code units before the first
terminator. -/
def cstr (w : WString) : WString := w.takeWhile (fun a => decide (a ≠ 0))

/-- The specification's acceptance test for a candidate: path resolved,
`CreateFile` succeeded, vendor and product equal the request and, when a serial
number is requested, the serial query succeeded and the serial string equals
the requested one. -/
def accepted (vendor_id product_id : Nat) (serial_number : Option WString)
    (c : Candidate) : Bool :=
  c.detail_res && decide (c.write_handle ≠ INVALID_HANDLE_VALUE) &&
  decide (c.VendorID = vendor_id) && decide (c.ProductID = product_id) &&
  (match serial_number with
   | none => true
   | some sn => c.serial_res && decide (cstr c.ser = cstr sn))

/-- The slot invariant: `valid` is set exactly when the connection handle is not
the sentinel. -/
def SlotInv (s : State) : Prop :=
  ∀ i, (s.devices i).valid ≠ 0 ↔ (s.devices i).device_handle ≠ INVALID_HANDLE_VALUE

/-- What holds of every table the program can reach: before the first
`hid_open` every slot is free with no message; afterwards the slot invariant
holds. -/
def Inv (s : State) : Prop :=
  (s.devices_initialized = 0 → ∀ i, (s.devices i).valid = 0 ∧ (s.devices i).last_error = none) ∧
  (s.devices_initialized ≠ 0 → SlotInv s)

/-- Number of slots in use. -/
def inUse (s : State) : Nat :=
  ((List.finRange MAX_DEVICES).filter (fun i => decide ((s.devices i).valid ≠ 0))).length

/-- Exactly the first `k` slots are in use. -/
def FirstInUse (k : Nat) (s : State) : Prop :=
  ∀ j : Fin MAX_DEVICES, (s.devices j).valid ≠ 0 ↔ j.val < k

/-! ## Open connections -/

/-- Effect of one call on the list of open connections: a successful
`CreateFile` opens the handle it returns, `CloseHandle` closes its argument. -/
def openStep (L : List HANDLE) : OsCall → List HANDLE
  | .CreateFile h => if h = INVALID_HANDLE_VALUE then L else h :: L
  | .CloseHandle h => L.filter (fun x => decide (x ≠ h))
  | _ => L

/-- The connections open after a list of calls, given those open before. -/
def openAfter (L : List HANDLE) (calls : List OsCall) : List HANDLE :=
  calls.foldl openStep L

/-- The system does not return from `CreateFile` the value of a handle that is
still open. -/
def freshStep (L : List HANDLE) : OsCall → Bool
  | .CreateFile h => decide (h = INVALID_HANDLE_VALUE) || decide (h ∉ L)
  | _ => true

/-- Every `CreateFile` of a list of calls returns a fresh handle or fails. -/
def freshHandles : List HANDLE → List OsCall → Bool
  | _, [] => true
  | L, c :: cs => freshStep L c && freshHandles (openStep L c) cs

/-- The device-information set that `hid_open` passes to `CloseHandle` is not
the value of an open connection, nor of one `CreateFile` opens during the
call. -/
def devInfoApart (L : List HANDLE) : Op → Bool
  | .hid_open _ _ _ os =>
    decide (os.device_info_set ∉ L) &&
    os.candidates.all (fun c =>
      decide (c.write_handle = INVALID_HANDLE_VALUE) ||
      decide (c.write_handle ≠ os.device_info_set))
  | _ => true

/-- The answers of the system during a sequence of calls are those of a system
that keeps handle values apart, `L` being the connections open at its start. -/
def osSane (s : State) (L : List HANDLE) : List Op → Bool
  | [] => true
  | op :: ops =>
    freshHandles L (exec s op).calls && devInfoApart L op &&
    osSane (exec s op).state (openAfter L (exec s op).calls) ops

/-- The valid slots hold open connections, no two of them the same one. -/
def Live (s : State) (L : List HANDLE) : Prop :=
  (∀ j, (s.devices j).valid ≠ 0 → (s.devices j).device_handle ∈ L) ∧
  (∀ j j2, (s.devices j).valid ≠ 0 → (s.devices j2).valid ≠ 0 →
    (s.devices j).device_handle = (s.devices j2).device_handle → j = j2) ∧
  INVALID_HANDLE_VALUE ∉ L

/-- What the enumeration loop does to the open connections `L`: it closes none
of them, opens only handles of its candidates, and a handle it stores in the
claimed slot is newly opened and still open. -/
def ScanLive (L : List HANDLE) (dev : Device) (r : Scan) (cs : List Candidate) : Prop :=
  INVALID_HANDLE_VALUE ∉ openAfter L r.calls ∧
  (∀ h ∈ L, h ∈ openAfter L r.calls) ∧
  (∀ h ∈ openAfter L r.calls, h ∈ L ∨ ∃ x ∈ cs, x.write_handle = h) ∧
  (r.dev.device_handle = dev.device_handle ∨
    (r.dev.device_handle ∈ openAfter L r.calls ∧ r.dev.device_handle ∉ L))

/-! ## Concrete inputs used to exercise the theorems -/

/-- A device 0x04D8/0x003F whose serial string is "A". -/
def deviceA : Candidate := ⟨true, 100, 0x04D8, 0x003F, true, [65, 0], none⟩

/-- A device 0x04D8/0x003F whose serial string is "B". -/
def deviceB : Candidate := ⟨true, 104, 0x04D8, 0x003F, true, [66, 0], none⟩

/-- The system reports `deviceA`, then `deviceB`. -/
def twoDevices : OpenOs := ⟨500, [deviceA, deviceB]⟩

/-- Device "A" while it is held open elsewhere: `CreateFile` fails on it. -/
def busyA : Candidate := ⟨true, INVALID_HANDLE_VALUE, 0, 0, false, [], some [66, 117, 115, 121]⟩

/-- Open "A", then open "B" (while "A" cannot be opened again), then close "A". -/
def sampleRun : List Op :=
  [Op.hid_open 0x04D8 0x3F none twoDevices,
   Op.hid_open 0x04D8 0x3F (some [66]) ⟨500, [busyA, deviceB]⟩,
   Op.hid_close 0]

/-- The table after one successful `hid_open(0x04D8, 0x3F, NULL)`; slot 0 holds
the connection of `deviceA`. -/
def oneOpen : State := (hid_open boot 0x04D8 0x3F none twoDevices).state

/-! ## Lemmas -/

theorem wcscmp_eq_zero_iff (a b : WString) : wcscmp a b = 0 ↔ cstr a = cstr b := by
  induction a generalizing b with
  | nil =>
    cases b with
    | nil => simp [wcscmp, cstr]
    | cons y ys =>
      by_cases hy : y = 0 <;> simp [wcscmp, cstr, List.takeWhile, hy]
  | cons x xs ih =>
    cases b with
    | nil => by_cases hx : x = 0 <;> simp [wcscmp, cstr, List.takeWhile, hx]
    | cons y ys =>
      rcases Nat.lt_trichotomy x y with h | h | h
      · have hne : x ≠ y := Nat.ne_of_lt h
        by_cases hx : x = 0 <;> by_cases hy : y = 0 <;>
          simp_all [wcscmp, cstr, List.takeWhile]
      · subst h
        by_cases hx : x = 0
        · simp [wcscmp, cstr, List.takeWhile, hx]
        · have := ih ys
          simp [wcscmp, cstr, List.takeWhile, hx] at this ⊢
          exact this
      · have hne : x ≠ y := Nat.ne_of_gt h
        have hn : ¬ x < y := Nat.lt_asymm h
        by_cases hx : x = 0 <;> by_cases hy : y = 0 <;>
          simp_all [wcscmp, cstr, List.takeWhile]
        omega

theorem scan_valid (v p : Nat) (sn : Option WString) (cs : List Candidate) :
    ∀ (dev : Device) (k : Nat), (scan v p sn dev k cs).dev.valid = dev.valid := by
  induction cs with
  | nil => intro dev k; simp [scan]
  | cons c rest ih =>
    intro dev k
    cases sn <;> simp only [scan, register_error] <;> split_ifs <;> simp [ih]

theorem scan_handle (v p : Nat) (sn : Option WString) (cs : List Candidate) :
    ∀ (dev : Device) (k : Nat), (scan v p sn dev k cs).dev.device_handle =
      match cs.find? (accepted v p sn) with
      | some c => c.write_handle
      | none => dev.device_handle := by
  induction cs with
  | nil => intro dev k; simp [scan]
  | cons c rest ih =>
    intro dev k
    by_cases hd : c.detail_res = true <;>
    by_cases hh : c.write_handle = INVALID_HANDLE_VALUE <;>
    by_cases hv : c.VendorID = v <;>
    by_cases hp : c.ProductID = p <;>
    by_cases hs : c.serial_res = true <;>
    cases sn with
    | none => simp [scan, register_error, List.find?, accepted, hd, hh, hv, hp, hs, ih]
    | some w =>
      by_cases hw : cstr c.ser = cstr w <;>
      simp [scan, register_error, List.find?, accepted, hd, hh, hv, hp, hs, hw, ih,
        wcscmp_eq_zero_iff]

theorem scan_last_error (v p : Nat) (sn : Option WString) (cs : List Candidate) :
    ∀ (dev : Device) (k : Nat), (scan v p sn dev k cs).nerrs = 0 →
      (scan v p sn dev k cs).dev.last_error = dev.last_error := by
  induction cs with
  | nil => intro dev k; simp [scan]
  | cons c rest ih =>
    intro dev k
    cases sn <;> simp only [scan, register_error] <;> split_ifs <;> simp <;> exact ih _ _

theorem find_available_none {d : Fin MAX_DEVICES → Device} :
    find_available d = none ↔ ∀ i, (d i).valid ≠ 0 := by
  simp [find_available, List.mem_finRange]

theorem find_available_some {d : Fin MAX_DEVICES → Device} {i : Fin MAX_DEVICES}
    (h : find_available d = some i) :
    (d i).valid = 0 ∧ ∀ j, j < i → (d j).valid ≠ 0 := by
  unfold find_available at h
  rw [List.find?_eq_some] at h
  obtain ⟨hi, as, bs, hsplit, hbefore⟩ := h
  refine ⟨by simpa using hi, ?_⟩
  intro j hj
  have hsorted := List.pairwise_lt_finRange MAX_DEVICES
  rw [hsplit] at hsorted
  have hmem : j ∈ as ++ i :: bs := hsplit ▸ List.mem_finRange j
  rcases List.mem_append.1 hmem with hin | hin
  · simpa using hbefore j hin
  · exfalso
    rcases List.mem_cons.1 hin with heq | hin2
    · exact absurd (heq ▸ hj) (lt_irrefl _)
    · have hlt : i < j := by
        have h2 := (List.pairwise_append.1 hsorted).2.1
        exact List.rel_of_pairwise_cons h2 hin2
      exact absurd (lt_trans hlt hj) (lt_irrefl _)

theorem init_devices_of_initialized {s : State} (h : s.devices_initialized ≠ 0) :
    init_devices s = s := by
  simp [init_devices, h]

theorem init_devices_initialized (s : State) : (init_devices s).devices_initialized ≠ 0 := by
  unfold init_devices
  split_ifs with h <;> simp [h]

theorem inv_init_devices {s : State} (hs : Inv s) :
    SlotInv (init_devices s) ∧
    (∀ i, ((init_devices s).devices i).valid = (s.devices i).valid) ∧
    (∀ i, ((init_devices s).devices i).last_error = (s.devices i).last_error) := by
  by_cases h : s.devices_initialized = 0
  · have h0 := hs.1 h
    simp only [init_devices, h, if_true]
    refine ⟨fun i => by simp [INVALID_HANDLE_VALUE], fun i => (h0 i).1.symm,
      fun i => (h0 i).2.symm⟩
  · rw [init_devices_of_initialized h]
    exact ⟨hs.2 h, fun _ => rfl, fun _ => rfl⟩

theorem accepted_handle {v p : Nat} {sn : Option WString} {cs : List Candidate}
    {c : Candidate} (h : cs.find? (accepted v p sn) = some c) :
    c.write_handle ≠ INVALID_HANDLE_VALUE := by
  have := List.find?_some h
  simp [accepted] at this
  exact this.1.1.1.2

/-- `hid_open` on a table with no free slot. -/
theorem hid_open_full {s : State} (v p : Nat) (sn : Option WString) (os : OpenOs)
    (h : find_available (init_devices s).devices = none) :
    hid_open s v p sn os = ⟨-1, init_devices s, [], []⟩ := by
  simp [hid_open, h]

/-- `hid_open` when slot `i` is claimed and a candidate is accepted. -/
theorem hid_open_hit {s : State} (_hs : Inv s) (v p : Nat) (sn : Option WString) (os : OpenOs)
    {i : Fin MAX_DEVICES} {c : Candidate}
    (hi : find_available (init_devices s).devices = some i)
    (hc : os.candidates.find? (accepted v p sn) = some c) :
    (hid_open s v p sn os).ret = (i.val : Int) ∧
    (hid_open s v p sn os).state.devices_initialized = (init_devices s).devices_initialized ∧
    (hid_open s v p sn os).state.devices =
      Function.update (init_devices s).devices i
        ⟨1, c.write_handle,
          (scan v p sn { (init_devices s).devices i with valid := 1 } 0
            os.candidates).dev.last_error⟩ := by
  have hh := scan_handle v p sn os.candidates { (init_devices s).devices i with valid := 1 } 0
  have hv := scan_valid v p sn os.candidates { (init_devices s).devices i with valid := 1 } 0
  rw [hc] at hh
  simp only at hh hv
  have hne := accepted_handle hc
  simp only [hid_open, hi]
  rw [if_pos (by rw [hh]; exact hne)]
  refine ⟨rfl, rfl, ?_⟩
  refine congrArg (Function.update (init_devices s).devices i) ?_
  generalize scan v p sn _ 0 os.candidates = r at hh hv
  obtain ⟨⟨a, b, e⟩, _, _⟩ := r
  simp only at hh hv
  simp [hh, hv]

/-- `hid_open` when slot `i` is claimed and no candidate is accepted. -/
theorem hid_open_miss {s : State} (hs : Inv s) (v p : Nat) (sn : Option WString) (os : OpenOs)
    {i : Fin MAX_DEVICES}
    (hi : find_available (init_devices s).devices = some i)
    (hc : os.candidates.find? (accepted v p sn) = none) :
    (hid_open s v p sn os).ret = -1 ∧
    (hid_open s v p sn os).state.devices_initialized = (init_devices s).devices_initialized ∧
    (hid_open s v p sn os).state.devices =
      Function.update (init_devices s).devices i
        ⟨0, INVALID_HANDLE_VALUE,
          (scan v p sn { (init_devices s).devices i with valid := 1 } 0
            os.candidates).dev.last_error⟩ := by
  have hh := scan_handle v p sn os.candidates { (init_devices s).devices i with valid := 1 } 0
  rw [hc] at hh
  simp only at hh
  have hfree := (find_available_some hi).1
  have hinv : ((init_devices s).devices i).device_handle = INVALID_HANDLE_VALUE := by
    by_contra hcon
    exact ((inv_init_devices hs).1 i).2 hcon hfree
  replace hh : (scan v p sn { (init_devices s).devices i with valid := 1 } 0
      os.candidates).dev.device_handle = INVALID_HANDLE_VALUE := hh.trans hinv
  simp only [hid_open, hi]
  rw [if_neg (by rw [hh]; simp)]
  refine ⟨rfl, rfl, ?_⟩
  refine congrArg (Function.update (init_devices s).devices i) ?_
  generalize scan v p sn _ 0 os.candidates = r at hh
  obtain ⟨⟨a, b, e⟩, _, _⟩ := r
  simp only at hh
  simp [hh]

theorem inv_boot : Inv boot := by
  refine ⟨fun _ i => ⟨rfl, rfl⟩, fun h => absurd rfl h⟩

theorem inv_set_last_error {s : State} (hs : Inv s) {i : Fin MAX_DEVICES}
    (hv : (s.devices i).valid ≠ 0) (m : Option WString) :
    Inv { s with devices := Function.update s.devices i { s.devices i with last_error := m } } := by
  refine ⟨fun h0 => absurd (hs.1 h0 i).1 hv, fun h1 j => ?_⟩
  have := hs.2 h1 j
  by_cases hj : j = i
  · subst hj; simpa using this
  · simpa [Function.update_noteq hj] using this

theorem inv_hid_open {s : State} (hs : Inv s) (v p : Nat) (sn : Option WString) (os : OpenOs) :
    Inv (hid_open s v p sn os).state ∧ (hid_open s v p sn os).state.devices_initialized ≠ 0 := by
  have hinit := init_devices_initialized s
  have hsl := (inv_init_devices hs).1
  cases hi : find_available (init_devices s).devices with
  | none =>
    rw [hid_open_full v p sn os hi]
    exact ⟨⟨fun h0 => absurd h0 hinit, fun _ => hsl⟩, hinit⟩
  | some i =>
    cases hc : os.candidates.find? (accepted v p sn) with
    | none =>
      obtain ⟨-, h2, h3⟩ := hid_open_miss hs v p sn os hi hc
      refine ⟨⟨fun h0 => absurd (h2 ▸ h0) hinit, fun _ j => ?_⟩, h2 ▸ hinit⟩
      rw [h3]
      by_cases hj : j = i
      · subst hj; simp
      · simpa [Function.update_noteq hj] using hsl j
    | some c =>
      obtain ⟨-, h2, h3⟩ := hid_open_hit hs v p sn os hi hc
      refine ⟨⟨fun h0 => absurd (h2 ▸ h0) hinit, fun _ j => ?_⟩, h2 ▸ hinit⟩
      rw [h3]
      by_cases hj : j = i
      · subst hj; simpa using accepted_handle hc
      · simpa [Function.update_noteq hj] using hsl j

theorem inv_hid_write {s : State} (hs : Inv s) (device : Int) (os : IoOs) :
    Inv (hid_write s device os).state := by
  unfold hid_write
  split_ifs with h1 h2 h3
  · exact hs
  · exact hs
  · exact inv_set_last_error hs h2 os.msg
  · exact hs

theorem inv_hid_read {s : State} (hs : Inv s) (device : Int) (os : IoOs) :
    Inv (hid_read s device os).state := by
  unfold hid_read
  split_ifs with h1 h2 h3
  · exact hs
  · exact hs
  · exact inv_set_last_error hs h2 os.msg
  · exact hs

theorem inv_get_string {s : State} (hs : Inv s) (device : Int) (q : HANDLE → OsCall)
    (op : String) (os : StrOs) : Inv (get_string s device q op os).state := by
  unfold get_string
  split_ifs with h1 h2 h3
  · exact hs
  · exact hs
  · exact inv_set_last_error hs h2 os.msg
  · exact hs

theorem inv_hid_close {s : State} (hs : Inv s) (device : Int) :
    Inv (hid_close s device).state := by
  unfold hid_close
  split_ifs with h1 h2
  · exact hs
  · exact hs
  · refine ⟨fun h0 => absurd (hs.1 h0 _).1 h2, fun h1 j => ?_⟩
    have := hs.2 h1 j
    by_cases hj : j = slotOf device
    · subst hj; simp
    · simpa [Function.update_noteq hj] using this

theorem inv_exec {s : State} (hs : Inv s) (op : Op) : Inv (exec s op).state := by
  cases op with
  | hid_open v p sn os => exact (inv_hid_open hs v p sn os).1
  | hid_write d os => exact inv_hid_write hs d os
  | hid_read d os => exact inv_hid_read hs d os
  | hid_close d => exact inv_hid_close hs d
  | hid_get_manufacturer_string d os => exact inv_get_string hs d _ _ os
  | hid_get_product_string d os => exact inv_get_string hs d _ _ os
  | hid_get_serial_number_string d os => exact inv_get_string hs d _ _ os
  | hid_get_indexed_string d k os => exact inv_get_string hs d _ _ os
  | hid_error d => exact hs

theorem inv_run {s : State} (hs : Inv s) (ops : List Op) : Inv (run s ops) := by
  induction ops generalizing s with
  | nil => exact hs
  | cons op ops ih => exact ih (inv_exec hs op)

theorem hid_open_ret_cases {s : State} (hs : Inv s) (v p : Nat) (sn : Option WString)
    (os : OpenOs) :
    (hid_open s v p sn os).ret = -1 ∨
    ∃ i : Fin MAX_DEVICES, (hid_open s v p sn os).ret = (i.val : Int) ∧
      find_available (init_devices s).devices = some i ∧
      ∃ c, os.candidates.find? (accepted v p sn) = some c := by
  cases hi : find_available (init_devices s).devices with
  | none => left; rw [hid_open_full v p sn os hi]
  | some i =>
    cases hc : os.candidates.find? (accepted v p sn) with
    | none => left; exact (hid_open_miss hs v p sn os hi hc).1
    | some c => right; exact ⟨i, (hid_open_hit hs v p sn os hi hc).1, rfl, c, rfl⟩

theorem fin_cast_inj {i j : Fin MAX_DEVICES} : ((i.val : Int) = (j.val : Int)) ↔ i = j := by
  constructor
  · intro h; exact Fin.ext (by exact_mod_cast h)
  · intro h; rw [h]

theorem hid_open_valid {s : State} (hs : Inv s) (v p : Nat) (sn : Option WString)
    (os : OpenOs) (j : Fin MAX_DEVICES) :
    ((hid_open s v p sn os).state.devices j).valid =
      if (hid_open s v p sn os).ret = (j.val : Int) then 1 else (s.devices j).valid := by
  have hval := (inv_init_devices hs).2.1
  cases hi : find_available (init_devices s).devices with
  | none =>
    rw [hid_open_full v p sn os hi]
    have : ¬ ((-1 : Int) = (j.val : Int)) := by omega
    simp [this, hval]
  | some i =>
    cases hc : os.candidates.find? (accepted v p sn) with
    | none =>
      obtain ⟨h1, -, h3⟩ := hid_open_miss hs v p sn os hi hc
      have : ¬ ((-1 : Int) = (j.val : Int)) := by omega
      rw [h1, h3, if_neg this]
      by_cases hj : j = i
      · subst hj
        simpa [hval] using ((find_available_some hi).1).symm
      · simp [Function.update_noteq hj, hval]
    | some c =>
      obtain ⟨h1, -, h3⟩ := hid_open_hit hs v p sn os hi hc
      rw [h1, h3]
      by_cases hj : j = i
      · subst hj; simp
      · have : ¬ ((i.val : Int) = (j.val : Int)) := fun h => hj (fin_cast_inj.1 h).symm
        simp [Function.update_noteq hj, hval, this]

theorem hid_open_last_error {s : State} (hs : Inv s) (v p : Nat) (sn : Option WString)
    (os : OpenOs) (j : Fin MAX_DEVICES) (hj : j ∉ (hid_open s v p sn os).errs) :
    ((hid_open s v p sn os).state.devices j).last_error = (s.devices j).last_error := by
  have hle := (inv_init_devices hs).2.2
  cases hi : find_available (init_devices s).devices with
  | none => rw [hid_open_full v p sn os hi]; exact hle j
  | some i =>
    have hst : (hid_open s v p sn os).state.devices j =
        Function.update (init_devices s).devices i
          ⟨((hid_open s v p sn os).state.devices i).valid,
           ((hid_open s v p sn os).state.devices i).device_handle,
           (scan v p sn { (init_devices s).devices i with valid := 1 } 0
              os.candidates).dev.last_error⟩ j := by
      cases hc : os.candidates.find? (accepted v p sn) with
      | none => rw [(hid_open_miss hs v p sn os hi hc).2.2]; simp
      | some c => rw [(hid_open_hit hs v p sn os hi hc).2.2]; simp
    rw [hst]
    by_cases hji : j = i
    · subst hji
      have herr : (hid_open s v p sn os).errs =
          List.replicate (scan v p sn { (init_devices s).devices j with valid := 1 } 0
            os.candidates).nerrs j := by
        simp only [hid_open, hi]
        split_ifs <;> rfl
      rw [herr] at hj
      have h0 : (scan v p sn { (init_devices s).devices j with valid := 1 } 0
          os.candidates).nerrs = 0 := by
        by_contra hne
        exact hj (List.mem_replicate.2 ⟨hne, rfl⟩)
      simp only [Function.update_same]
      rw [scan_last_error v p sn os.candidates _ 0 h0]
      exact hle j
    · rw [Function.update_noteq hji]; exact hle j

theorem slotOf_val {device : Int} (h0 : 0 ≤ device) (h1 : device < MAX_DEVICES) :
    ((slotOf device).val : Int) = device := by
  have h2 : device.toNat < MAX_DEVICES := by
    have : (device.toNat : Int) < (MAX_DEVICES : Int) := by rw [Int.toNat_of_nonneg h0]; exact h1
    exact_mod_cast this
  simp only [slotOf, Nat.mod_eq_of_lt h2]
  exact Int.toNat_of_nonneg h0

theorem slotOf_cast (i : Fin MAX_DEVICES) : slotOf (i.val : Int) = i := by
  apply Fin.ext
  simp [slotOf, Nat.mod_eq_of_lt i.isLt]

theorem valid_get_string (s : State) (device : Int) (q : HANDLE → OsCall) (op : String)
    (os : StrOs) (j : Fin MAX_DEVICES) :
    ((get_string s device q op os).state.devices j).valid = (s.devices j).valid ∧
    ((get_string s device q op os).state.devices j).device_handle =
      (s.devices j).device_handle := by
  unfold get_string
  split_ifs <;> try exact ⟨rfl, rfl⟩
  by_cases hj : j = slotOf device
  · subst hj; simp [register_error]
  · simp [Function.update_noteq hj]

theorem valid_hid_write (s : State) (device : Int) (os : IoOs) (j : Fin MAX_DEVICES) :
    ((hid_write s device os).state.devices j).valid = (s.devices j).valid ∧
    ((hid_write s device os).state.devices j).device_handle = (s.devices j).device_handle := by
  unfold hid_write
  split_ifs <;> try exact ⟨rfl, rfl⟩
  by_cases hj : j = slotOf device
  · subst hj; simp [register_error]
  · simp [Function.update_noteq hj]

theorem valid_hid_read (s : State) (device : Int) (os : IoOs) (j : Fin MAX_DEVICES) :
    ((hid_read s device os).state.devices j).valid = (s.devices j).valid ∧
    ((hid_read s device os).state.devices j).device_handle = (s.devices j).device_handle := by
  unfold hid_read
  split_ifs <;> try exact ⟨rfl, rfl⟩
  by_cases hj : j = slotOf device
  · subst hj; simp [register_error]
  · simp [Function.update_noteq hj]

theorem valid_hid_close (s : State) (device : Int) (j : Fin MAX_DEVICES)
    (hv : ((hid_close s device).state.devices j).valid ≠ 0) : (s.devices j).valid ≠ 0 := by
  unfold hid_close at hv
  split_ifs at hv <;> try exact hv
  by_cases hj : j = slotOf device
  · subst hj; simp at hv
  · simpa [Function.update_noteq hj] using hv

theorem valid_exec {s : State} (hs : Inv s) (op : Op) (j : Fin MAX_DEVICES)
    (hv : ((exec s op).state.devices j).valid ≠ 0) :
    (s.devices j).valid ≠ 0 ∨ (j.val : Int) ∈ openedAt s op := by
  cases op with
  | hid_open v p sn os =>
    simp only [exec, Result.as] at hv
    rw [hid_open_valid hs] at hv
    by_cases hr : (hid_open s v p sn os).ret = (j.val : Int)
    · right
      have : (0 : Int) ≤ (hid_open s v p sn os).ret := by rw [hr]; exact Int.natCast_nonneg _
      simp [openedAt, this, hr]
    · left; simpa [hr] using hv
  | hid_write d os => left; simpa [exec, Result.as, (valid_hid_write s d os j).1] using hv
  | hid_read d os => left; simpa [exec, Result.as, (valid_hid_read s d os j).1] using hv
  | hid_close d => left; exact valid_hid_close s d j (by simpa [exec, Result.as] using hv)
  | hid_get_manufacturer_string d os =>
    left
    simpa [exec, Result.as, hid_get_manufacturer_string, (valid_get_string s d _ _ os j).1]
      using hv
  | hid_get_product_string d os =>
    left
    simpa [exec, Result.as, hid_get_product_string, (valid_get_string s d _ _ os j).1] using hv
  | hid_get_serial_number_string d os =>
    left
    simpa [exec, Result.as, hid_get_serial_number_string, (valid_get_string s d _ _ os j).1]
      using hv
  | hid_get_indexed_string d k os =>
    left
    simpa [exec, Result.as, hid_get_indexed_string, (valid_get_string s d _ _ os j).1] using hv
  | hid_error d => left; simpa [exec] using hv

theorem valid_run {s : State} (hs : Inv s) (ops : List Op) (j : Fin MAX_DEVICES)
    (hv : ((run s ops).devices j).valid ≠ 0) :
    (s.devices j).valid ≠ 0 ∨ (j.val : Int) ∈ openedBy s ops := by
  induction ops generalizing s with
  | nil => left; exact hv
  | cons op ops ih =>
    rcases ih (inv_exec hs op) hv with h | h
    · rcases valid_exec hs op j h with h2 | h2
      · left; exact h2
      · right; exact List.mem_append.2 (Or.inl h2)
    · right; exact List.mem_append.2 (Or.inr h)

theorem bad_handle_split {s : State} {device : Int}
    (h : device < 0 ∨ device ≥ MAX_DEVICES ∨ (s.devices (slotOf device)).valid = 0) :
    (device < 0 ∨ device ≥ MAX_DEVICES) ∨
    (¬ (device < 0 ∨ device ≥ MAX_DEVICES) ∧ (s.devices (slotOf device)).valid = 0) := by
  by_cases h1 : device < 0 ∨ device ≥ MAX_DEVICES
  · exact Or.inl h1
  · rcases h with h | h | h
    · exact absurd (Or.inl h) h1
    · exact absurd (Or.inr h) h1
    · exact Or.inr ⟨h1, h⟩

theorem hid_write_bad {s : State} {device : Int}
    (h : device < 0 ∨ device ≥ MAX_DEVICES ∨ (s.devices (slotOf device)).valid = 0)
    (os : IoOs) : hid_write s device os = ⟨-1, s, [], []⟩ := by
  unfold hid_write
  rcases bad_handle_split h with h1 | ⟨h1, h2⟩
  · rw [if_pos h1]
  · rw [if_neg h1, if_pos h2]

theorem hid_read_bad {s : State} {device : Int}
    (h : device < 0 ∨ device ≥ MAX_DEVICES ∨ (s.devices (slotOf device)).valid = 0)
    (os : IoOs) : hid_read s device os = ⟨-1, s, [], []⟩ := by
  unfold hid_read
  rcases bad_handle_split h with h1 | ⟨h1, h2⟩
  · rw [if_pos h1]
  · rw [if_neg h1, if_pos h2]

theorem get_string_bad {s : State} {device : Int}
    (h : device < 0 ∨ device ≥ MAX_DEVICES ∨ (s.devices (slotOf device)).valid = 0)
    (q : HANDLE → OsCall) (op : String) (os : StrOs) :
    get_string s device q op os = ⟨-1, s, [], []⟩ := by
  unfold get_string
  rcases bad_handle_split h with h1 | ⟨h1, h2⟩
  · rw [if_pos h1]
  · rw [if_neg h1, if_pos h2]

theorem hid_close_bad {s : State} {device : Int}
    (h : device < 0 ∨ device ≥ MAX_DEVICES ∨ (s.devices (slotOf device)).valid = 0) :
    hid_close s device = ⟨(), s, [], []⟩ := by
  unfold hid_close
  rcases bad_handle_split h with h1 | ⟨h1, h2⟩
  · rw [if_pos h1]
  · rw [if_neg h1, if_pos h2]

theorem hid_error_bad {s : State} {device : Int}
    (h : device < 0 ∨ device ≥ MAX_DEVICES ∨ (s.devices (slotOf device)).valid = 0) :
    hid_error s device = none := by
  unfold hid_error
  rcases bad_handle_split h with h1 | ⟨h1, h2⟩
  · rw [if_pos h1]
  · rw [if_neg h1, if_pos h2]

theorem good_handle {s : State} {device : Int}
    (h : 0 ≤ device ∧ device < MAX_DEVICES ∧ (s.devices (slotOf device)).valid ≠ 0) :
    ¬ (device < 0 ∨ device ≥ MAX_DEVICES) ∧ ¬ (s.devices (slotOf device)).valid = 0 := by
  refine ⟨?_, h.2.2⟩
  rintro (hc | hc)
  · exact absurd h.1 (not_le.2 hc)
  · exact absurd h.2.1 (not_lt.2 hc)

theorem hid_close_good {s : State} {device : Int}
    (h : 0 ≤ device ∧ device < MAX_DEVICES ∧ (s.devices (slotOf device)).valid ≠ 0) :
    hid_close s device =
      ⟨(), { s with
              devices := Function.update s.devices (slotOf device)
                ⟨0, INVALID_HANDLE_VALUE, (s.devices (slotOf device)).last_error⟩ },
        [OsCall.CloseHandle (s.devices (slotOf device)).device_handle], []⟩ := by
  unfold hid_close
  rw [if_neg (good_handle h).1, if_neg (good_handle h).2]

theorem first_free {s : State} (hs : Inv s) (hfree : ∃ i, (s.devices i).valid = 0) :
    ∃ i, find_available (init_devices s).devices = some i ∧ (s.devices i).valid = 0 ∧
      ∀ j, j < i → (s.devices j).valid ≠ 0 := by
  have hval := (inv_init_devices hs).2.1
  cases hi : find_available (init_devices s).devices with
  | none =>
    obtain ⟨i, h0⟩ := hfree
    exact absurd ((hval i).trans h0) (find_available_none.1 hi i)
  | some i =>
    obtain ⟨h0, hlt⟩ := find_available_some hi
    exact ⟨i, rfl, (hval i) ▸ h0, fun j hj => (hval j) ▸ hlt j hj⟩

theorem find_none_of_forall {v p : Nat} {sn : Option WString} {cs : List Candidate}
    (h : ∀ c ∈ cs, accepted v p sn c = false) : cs.find? (accepted v p sn) = none := by
  rw [List.find?_eq_none]
  intro c hc
  simp [h c hc]

theorem inUse_congr {s t : State} (h : ∀ i, (t.devices i).valid = (s.devices i).valid) :
    inUse t = inUse s := by
  unfold inUse
  congr 2
  funext i
  rw [h i]

theorem valid_exec_eq (s : State) (op : Op) (hop : ∀ d, op ≠ Op.hid_close d)
    (hop2 : ∀ v p sn os, op ≠ Op.hid_open v p sn os) (j : Fin MAX_DEVICES) :
    ((exec s op).state.devices j).valid = (s.devices j).valid ∧
    ((exec s op).state.devices j).device_handle = (s.devices j).device_handle ∧
    openedAt s op = [] := by
  cases op with
  | hid_open v p sn os => exact absurd rfl (hop2 v p sn os)
  | hid_write d os => exact ⟨(valid_hid_write s d os j).1, (valid_hid_write s d os j).2, rfl⟩
  | hid_read d os => exact ⟨(valid_hid_read s d os j).1, (valid_hid_read s d os j).2, rfl⟩
  | hid_close d => exact absurd rfl (hop d)
  | hid_get_manufacturer_string d os =>
    exact ⟨(valid_get_string s d _ _ os j).1, (valid_get_string s d _ _ os j).2, rfl⟩
  | hid_get_product_string d os =>
    exact ⟨(valid_get_string s d _ _ os j).1, (valid_get_string s d _ _ os j).2, rfl⟩
  | hid_get_serial_number_string d os =>
    exact ⟨(valid_get_string s d _ _ os j).1, (valid_get_string s d _ _ os j).2, rfl⟩
  | hid_get_indexed_string d k os =>
    exact ⟨(valid_get_string s d _ _ os j).1, (valid_get_string s d _ _ os j).2, rfl⟩
  | hid_error d => exact ⟨rfl, rfl, rfl⟩

theorem firstInUse_open {s : State} (hs : Inv s) {k : Nat} (hk : FirstInUse k s)
    (v p : Nat) (sn : Option WString) (os : OpenOs) :
    (openedAt s (Op.hid_open v p sn os) = [] ∧ FirstInUse k (hid_open s v p sn os).state) ∨
    (openedAt s (Op.hid_open v p sn os) = [(k : Int)] ∧
      FirstInUse (k + 1) (hid_open s v p sn os).state) := by
  have hval := (inv_init_devices hs).2.1
  rcases hid_open_ret_cases hs v p sn os with hr | ⟨i, hr, hi, -⟩
  · left
    refine ⟨by simp [openedAt, hr], fun j => ?_⟩
    rw [hid_open_valid hs, hr]
    have : ¬ ((-1 : Int) = (j.val : Int)) := by omega
    rw [if_neg this]
    exact hk j
  · right
    obtain ⟨h0, hlt⟩ := find_available_some hi
    rw [hval] at h0
    have hik : i.val = k := by
      have h1 : ¬ i.val < k := fun hc => (hk i).2 hc h0
      by_contra hne
      have h2 : k < i.val := by omega
      have h3 := hlt ⟨k, lt_trans h2 i.isLt⟩ (by exact h2)
      rw [hval] at h3
      exact absurd ((hk ⟨k, lt_trans h2 i.isLt⟩).1 h3) (lt_irrefl _)
    refine ⟨?_, fun j => ?_⟩
    · have : (0 : Int) ≤ (i.val : Int) := Int.natCast_nonneg _
      simp [openedAt, hr, this, hik]
    · rw [hid_open_valid hs, hr]
      by_cases hj : j = i
      · subst hj; simp [hik]
      · have hne : ¬ ((i.val : Int) = (j.val : Int)) := fun h => hj (fin_cast_inj.1 h).symm
        rw [if_neg hne]
        have hjk : j.val ≠ k := fun h => hj (Fin.ext (h.trans hik.symm))
        rw [hk j]
        omega

theorem firstInUse_exec {s : State} (hs : Inv s) {k : Nat} (hk : FirstInUse k s)
    (op : Op) (hop : ∀ d, op ≠ Op.hid_close d) :
    (openedAt s op = [] ∧ FirstInUse k (exec s op).state) ∨
    (openedAt s op = [(k : Int)] ∧ FirstInUse (k + 1) (exec s op).state) := by
  by_cases ho : ∃ v p sn os, op = Op.hid_open v p sn os
  · obtain ⟨v, p, sn, os, rfl⟩ := ho
    exact firstInUse_open hs hk v p sn os
  · left
    have ho2 : ∀ v p sn os, op ≠ Op.hid_open v p sn os := fun v p sn os h => ho ⟨v, p, sn, os, h⟩
    refine ⟨(valid_exec_eq s op hop ho2 ⟨0, by decide⟩).2.2, fun j => ?_⟩
    rw [(valid_exec_eq s op hop ho2 j).1]
    exact hk j

theorem firstInUse_run (ops : List Op) :
    ∀ {s : State} {k : Nat}, Inv s → FirstInUse k s →
      (∀ op ∈ ops, ∀ d, op ≠ Op.hid_close d) →
      ∃ m, openedBy s ops = (List.range' k m).map Int.ofNat ∧
        FirstInUse (k + m) (run s ops) := by
  induction ops with
  | nil => intro s k _ hk _; exact ⟨0, rfl, hk⟩
  | cons op ops ih =>
    intro s k hs hk hno
    have hop := hno op (List.mem_cons_self _ _)
    have hrest : ∀ o ∈ ops, ∀ d, o ≠ Op.hid_close d :=
      fun o ho => hno o (List.mem_cons_of_mem _ ho)
    rcases firstInUse_exec hs hk op hop with ⟨h1, h2⟩ | ⟨h1, h2⟩
    · obtain ⟨m, hm1, hm2⟩ := ih (inv_exec hs op) h2 hrest
      exact ⟨m, by simp [openedBy, h1, hm1], hm2⟩
    · obtain ⟨m, hm1, hm2⟩ := ih (inv_exec hs op) h2 hrest
      refine ⟨m + 1, ?_, ?_⟩
      · simp [openedBy, h1, hm1, List.range'_succ]
      · have : k + (m + 1) = k + 1 + m := by omega
        rw [this]; exact hm2

theorem firstInUse_boot : FirstInUse 0 boot := by
  intro j
  simp [boot]

theorem hid_write_fail {s : State} {device : Int}
    (h : 0 ≤ device ∧ device < MAX_DEVICES ∧ (s.devices (slotOf device)).valid ≠ 0)
    {os : IoOs} (hres : os.res = false) :
    hid_write s device os =
      ⟨-1, { s with
              devices := Function.update s.devices (slotOf device)
                (register_error (s.devices (slotOf device)) "WriteFile" os.msg).1 },
        OsCall.WriteFile (s.devices (slotOf device)).device_handle ::
          (register_error (s.devices (slotOf device)) "WriteFile" os.msg).2,
        [slotOf device]⟩ := by
  unfold hid_write
  rw [if_neg (good_handle h).1, if_neg (good_handle h).2]
  simp only [hres, if_true]

theorem hid_write_ok {s : State} {device : Int}
    (h : 0 ≤ device ∧ device < MAX_DEVICES ∧ (s.devices (slotOf device)).valid ≠ 0)
    {os : IoOs} (hres : os.res = true) :
    hid_write s device os =
      ⟨int_of_DWORD os.bytes_read, s,
        [OsCall.WriteFile (s.devices (slotOf device)).device_handle], []⟩ := by
  unfold hid_write
  rw [if_neg (good_handle h).1, if_neg (good_handle h).2]
  simp [hres]

theorem hid_read_fail {s : State} {device : Int}
    (h : 0 ≤ device ∧ device < MAX_DEVICES ∧ (s.devices (slotOf device)).valid ≠ 0)
    {os : IoOs} (hres : os.res = false) :
    hid_read s device os =
      ⟨-1, { s with
              devices := Function.update s.devices (slotOf device)
                (register_error (s.devices (slotOf device)) "ReadFile" os.msg).1 },
        OsCall.ReadFile (s.devices (slotOf device)).device_handle ::
          (register_error (s.devices (slotOf device)) "ReadFile" os.msg).2,
        [slotOf device]⟩ := by
  unfold hid_read
  rw [if_neg (good_handle h).1, if_neg (good_handle h).2]
  simp only [hres, if_true]

theorem hid_read_ok {s : State} {device : Int}
    (h : 0 ≤ device ∧ device < MAX_DEVICES ∧ (s.devices (slotOf device)).valid ≠ 0)
    {os : IoOs} (hres : os.res = true) :
    hid_read s device os =
      ⟨int_of_DWORD os.bytes_read, s,
        [OsCall.ReadFile (s.devices (slotOf device)).device_handle], []⟩ := by
  unfold hid_read
  rw [if_neg (good_handle h).1, if_neg (good_handle h).2]
  simp [hres]

theorem get_string_fail {s : State} {device : Int}
    (h : 0 ≤ device ∧ device < MAX_DEVICES ∧ (s.devices (slotOf device)).valid ≠ 0)
    (q : HANDLE → OsCall) (op : String) {os : StrOs} (hres : os.res = false) :
    get_string s device q op os =
      ⟨-1, { s with
              devices := Function.update s.devices (slotOf device)
                (register_error (s.devices (slotOf device)) op os.msg).1 },
        q (s.devices (slotOf device)).device_handle ::
          (register_error (s.devices (slotOf device)) op os.msg).2,
        [slotOf device]⟩ := by
  unfold get_string
  rw [if_neg (good_handle h).1, if_neg (good_handle h).2]
  simp only [hres, if_true]

theorem get_string_ok {s : State} {device : Int}
    (h : 0 ≤ device ∧ device < MAX_DEVICES ∧ (s.devices (slotOf device)).valid ≠ 0)
    (q : HANDLE → OsCall) (op : String) {os : StrOs} (hres : os.res = true) :
    get_string s device q op os =
      ⟨0, s, [q (s.devices (slotOf device)).device_handle], []⟩ := by
  unfold get_string
  rw [if_neg (good_handle h).1, if_neg (good_handle h).2]
  simp [hres]

theorem hid_error_good {s : State} {device : Int}
    (h : 0 ≤ device ∧ device < MAX_DEVICES ∧ (s.devices (slotOf device)).valid ≠ 0) :
    hid_error s device = (s.devices (slotOf device)).last_error := by
  unfold hid_error
  rw [if_neg (good_handle h).1, if_neg (good_handle h).2]

theorem hid_error_after_register {s : State} {device : Int}
    (h : 0 ≤ device ∧ device < MAX_DEVICES ∧ (s.devices (slotOf device)).valid ≠ 0)
    (op : String) (msg : Option WString) :
    hid_error { s with
        devices := Function.update s.devices (slotOf device)
          (register_error (s.devices (slotOf device)) op msg).1 } device = msg := by
  have hg : 0 ≤ device ∧ device < MAX_DEVICES ∧
      (({ s with
        devices := Function.update s.devices (slotOf device)
          (register_error (s.devices (slotOf device)) op msg).1 } : State).devices
            (slotOf device)).valid ≠ 0 := by
    refine ⟨h.1, h.2.1, ?_⟩
    simpa [register_error] using h.2.2
  rw [hid_error_good hg]
  simp [register_error]

theorem int_of_DWORD_small {n : Nat} (h : n < 2 ^ 31) : int_of_DWORD n = (n : Int) := by
  have h1 : n % 2 ^ 32 = n := Nat.mod_eq_of_lt (by omega)
  unfold int_of_DWORD
  rw [h1, if_pos h]

theorem last_error_hid_write (s : State) (device : Int) (os : IoOs) (j : Fin MAX_DEVICES)
    (hj : j ∉ (hid_write s device os).errs) :
    ((hid_write s device os).state.devices j).last_error = (s.devices j).last_error := by
  unfold hid_write at hj ⊢
  split_ifs at hj ⊢ <;> try rfl
  have hne : j ≠ slotOf device := by simpa using hj
  simp [Function.update_noteq hne]

theorem last_error_hid_read (s : State) (device : Int) (os : IoOs) (j : Fin MAX_DEVICES)
    (hj : j ∉ (hid_read s device os).errs) :
    ((hid_read s device os).state.devices j).last_error = (s.devices j).last_error := by
  unfold hid_read at hj ⊢
  split_ifs at hj ⊢ <;> try rfl
  have hne : j ≠ slotOf device := by simpa using hj
  simp [Function.update_noteq hne]

theorem last_error_get_string (s : State) (device : Int) (q : HANDLE → OsCall) (op : String)
    (os : StrOs) (j : Fin MAX_DEVICES) (hj : j ∉ (get_string s device q op os).errs) :
    ((get_string s device q op os).state.devices j).last_error = (s.devices j).last_error := by
  unfold get_string at hj ⊢
  split_ifs at hj ⊢ <;> try rfl
  have hne : j ≠ slotOf device := by simpa using hj
  simp [Function.update_noteq hne]

theorem last_error_hid_close (s : State) (device : Int) (j : Fin MAX_DEVICES) :
    ((hid_close s device).state.devices j).last_error = (s.devices j).last_error := by
  unfold hid_close
  split_ifs <;> try rfl
  by_cases hj : j = slotOf device
  · subst hj; simp
  · simp [Function.update_noteq hj]

theorem last_error_exec {s : State} (hs : Inv s) (op : Op) (j : Fin MAX_DEVICES)
    (hj : j ∉ (exec s op).errs) :
    ((exec s op).state.devices j).last_error = (s.devices j).last_error := by
  cases op with
  | hid_open v p sn os => exact hid_open_last_error hs v p sn os j hj
  | hid_write d os => exact last_error_hid_write s d os j hj
  | hid_read d os => exact last_error_hid_read s d os j hj
  | hid_close d => exact last_error_hid_close s d j
  | hid_get_manufacturer_string d os => exact last_error_get_string s d _ _ os j hj
  | hid_get_product_string d os => exact last_error_get_string s d _ _ os j hj
  | hid_get_serial_number_string d os => exact last_error_get_string s d _ _ os j hj
  | hid_get_indexed_string d k os => exact last_error_get_string s d _ _ os j hj
  | hid_error d => rfl

theorem last_error_run {s : State} (hs : Inv s) (ops : List Op) (j : Fin MAX_DEVICES)
    (hj : j ∉ errsOf s ops) :
    ((run s ops).devices j).last_error = (s.devices j).last_error := by
  induction ops generalizing s with
  | nil => rfl
  | cons op ops ih =>
    have h1 : j ∉ (exec s op).errs := fun h => hj (List.mem_append.2 (Or.inl h))
    have h2 : j ∉ errsOf (exec s op).state ops := fun h => hj (List.mem_append.2 (Or.inr h))
    exact (ih (inv_exec hs op) h2).trans (last_error_exec hs op j h1)

theorem scan_cons_mismatch (v p : Nat) (sn : Option WString) (dev : Device) (k : Nat)
    (c : Candidate) (rest : List Candidate) (hd : c.detail_res = true)
    (ho : c.write_handle ≠ INVALID_HANDLE_VALUE) (hm : ¬ (c.VendorID = v ∧ c.ProductID = p)) :
    scan v p sn dev k (c :: rest) =
      ⟨(scan v p sn dev (k + 1) rest).dev,
       [OsCall.SetupDiEnumDeviceInterfaces k, OsCall.SetupDiGetDeviceInterfaceDetail,
        OsCall.SetupDiGetDeviceInterfaceDetail, OsCall.CreateFile c.write_handle,
        OsCall.HidD_GetAttributes c.write_handle, OsCall.CloseHandle c.write_handle]
         ++ (scan v p sn dev (k + 1) rest).calls,
       (scan v p sn dev (k + 1) rest).nerrs⟩ := by
  cases sn <;> simp [scan, hd, ho, hm]

theorem scan_cons_serial_fail (v p : Nat) (w : WString) (dev : Device) (k : Nat)
    (c : Candidate) (rest : List Candidate) (hd : c.detail_res = true)
    (ho : c.write_handle ≠ INVALID_HANDLE_VALUE) (hm : c.VendorID = v ∧ c.ProductID = p)
    (hq : c.serial_res = false) :
    scan v p (some w) dev k (c :: rest) =
      ⟨(scan v p (some w) { dev with last_error := c.msg } (k + 1) rest).dev,
       [OsCall.SetupDiEnumDeviceInterfaces k, OsCall.SetupDiGetDeviceInterfaceDetail,
        OsCall.SetupDiGetDeviceInterfaceDetail, OsCall.CreateFile c.write_handle,
        OsCall.HidD_GetAttributes c.write_handle,
        OsCall.HidD_GetSerialNumberString c.write_handle,
        OsCall.GetLastError, OsCall.FormatMessage, OsCall.LocalFree dev.last_error]
         ++ (scan v p (some w) { dev with last_error := c.msg } (k + 1) rest).calls,
       (scan v p (some w) { dev with last_error := c.msg } (k + 1) rest).nerrs + 1⟩ := by
  simp [scan, register_error, hd, ho, hm.1, hm.2, hq]

theorem scan_cons_serial_differs (v p : Nat) (w : WString) (dev : Device) (k : Nat)
    (c : Candidate) (rest : List Candidate) (hd : c.detail_res = true)
    (ho : c.write_handle ≠ INVALID_HANDLE_VALUE) (hm : c.VendorID = v ∧ c.ProductID = p)
    (hq : c.serial_res = true) (hw : cstr c.ser ≠ cstr w) :
    scan v p (some w) dev k (c :: rest) =
      ⟨(scan v p (some w) dev (k + 1) rest).dev,
       [OsCall.SetupDiEnumDeviceInterfaces k, OsCall.SetupDiGetDeviceInterfaceDetail,
        OsCall.SetupDiGetDeviceInterfaceDetail, OsCall.CreateFile c.write_handle,
        OsCall.HidD_GetAttributes c.write_handle,
        OsCall.HidD_GetSerialNumberString c.write_handle]
         ++ (scan v p (some w) dev (k + 1) rest).calls,
       (scan v p (some w) dev (k + 1) rest).nerrs⟩ := by
  have hne : ¬ wcscmp c.ser w = 0 := fun h => hw ((wcscmp_eq_zero_iff _ _).1 h)
  simp [scan, register_error, hd, ho, hm.1, hm.2, hq, hne]

/-- Every `CloseHandle` of the enumeration loop is on the handle `CreateFile`
returned for one of the candidates. -/
theorem scan_close_mem (v p : Nat) (sn : Option WString) (cs : List Candidate) :
    ∀ (dev : Device) (k : Nat) (h : HANDLE),
      OsCall.CloseHandle h ∈ (scan v p sn dev k cs).calls → ∃ x ∈ cs, x.write_handle = h := by
  induction cs with
  | nil => intro dev k h hmem; simp [scan] at hmem
  | cons c rest ih =>
    intro dev k h hmem
    have step : ∀ (d : Device) (sn2 : Option WString), sn2 = sn →
        OsCall.CloseHandle h ∈ (scan v p sn2 d (k + 1) rest).calls →
        ∃ x ∈ c :: rest, x.write_handle = h := by
      intro d sn2 hsn hin
      subst hsn
      obtain ⟨x, hx, hxh⟩ := ih d (k + 1) h hin
      exact ⟨x, List.mem_cons_of_mem _ hx, hxh⟩
    cases sn with
    | none =>
      simp only [scan, register_error] at hmem
      split_ifs at hmem <;> simp at hmem <;>
        first
        | exact step _ _ rfl hmem
        | (rcases hmem with hmem | hmem
           · exact ⟨c, List.mem_cons_self _ _, hmem.symm⟩
           · exact step _ _ rfl hmem)
    | some w =>
      simp only [scan, register_error] at hmem
      split_ifs at hmem <;> simp at hmem <;>
        first
        | exact step _ _ rfl hmem
        | (rcases hmem with hmem | hmem
           · exact ⟨c, List.mem_cons_self _ _, hmem.symm⟩
           · exact step _ _ rfl hmem)

/-- Over a prefix of candidates none of which is accepted the loop goes on:
it reaches the remaining candidates with the claimed slot's handle unchanged. -/
theorem scan_append_rejected (v p : Nat) (sn : Option WString) (pre rest : List Candidate)
    (hpre : ∀ x ∈ pre, accepted v p sn x = false) :
    ∀ (dev : Device) (k : Nat), ∃ (own : List OsCall) (dev2 : Device) (n : Nat),
      dev2.device_handle = dev.device_handle ∧ dev2.valid = dev.valid ∧
      scan v p sn dev k (pre ++ rest) =
        ⟨(scan v p sn dev2 (k + pre.length) rest).dev,
         own ++ (scan v p sn dev2 (k + pre.length) rest).calls,
         n + (scan v p sn dev2 (k + pre.length) rest).nerrs⟩ := by
  induction pre with
  | nil => intro dev k; exact ⟨[], dev, 0, rfl, rfl, by simp⟩
  | cons c pre ih =>
    intro dev k
    have hc := hpre c (List.mem_cons_self _ _)
    have hrest : ∀ x ∈ pre, accepted v p sn x = false :=
      fun x hx => hpre x (List.mem_cons_of_mem _ hx)
    have harith : k + 1 + pre.length = k + (c :: pre).length := by
      simp only [List.length_cons]; omega
    have cont : ∀ (own : List OsCall) (d : Device) (n : Nat),
        d.device_handle = dev.device_handle → d.valid = dev.valid →
        scan v p sn dev k (c :: (pre ++ rest)) =
          ⟨(scan v p sn d (k + 1) (pre ++ rest)).dev,
           own ++ (scan v p sn d (k + 1) (pre ++ rest)).calls,
           n + (scan v p sn d (k + 1) (pre ++ rest)).nerrs⟩ →
        ∃ (own : List OsCall) (dev2 : Device) (n : Nat),
          dev2.device_handle = dev.device_handle ∧ dev2.valid = dev.valid ∧
          scan v p sn dev k (c :: pre ++ rest) =
            ⟨(scan v p sn dev2 (k + (c :: pre).length) rest).dev,
             own ++ (scan v p sn dev2 (k + (c :: pre).length) rest).calls,
             n + (scan v p sn dev2 (k + (c :: pre).length) rest).nerrs⟩ := by
      intro own d n hdh hdv heq
      obtain ⟨own2, dev2, n2, h1, h2, h3⟩ := ih hrest d (k + 1)
      refine ⟨own ++ own2, dev2, n + n2, h1.trans hdh, h2.trans hdv, ?_⟩
      rw [List.cons_append, heq, h3, harith]
      simp [List.append_assoc, Nat.add_assoc]
    by_cases hd : c.detail_res = true
    · by_cases ho : c.write_handle = INVALID_HANDLE_VALUE
      · refine cont ([OsCall.SetupDiEnumDeviceInterfaces k, OsCall.SetupDiGetDeviceInterfaceDetail,
          OsCall.SetupDiGetDeviceInterfaceDetail, OsCall.CreateFile c.write_handle,
          OsCall.GetLastError, OsCall.FormatMessage, OsCall.LocalFree dev.last_error,
          OsCall.CloseHandle c.write_handle]) { dev with last_error := c.msg } 1 rfl rfl ?_
        cases sn <;> simp [scan, register_error, hd, ho, Nat.add_comm]
      · by_cases hm : c.VendorID = v ∧ c.ProductID = p
        · cases sn with
          | none => simp [accepted, hd, ho, hm.1, hm.2] at hc
          | some w =>
            by_cases hq : c.serial_res = true
            · have hw : cstr c.ser ≠ cstr w := by
                intro hw
                simp [accepted, hd, ho, hm.1, hm.2, hq, hw] at hc
              refine cont ([OsCall.SetupDiEnumDeviceInterfaces k, OsCall.SetupDiGetDeviceInterfaceDetail,
          OsCall.SetupDiGetDeviceInterfaceDetail, OsCall.CreateFile c.write_handle,
                OsCall.HidD_GetAttributes c.write_handle,
                OsCall.HidD_GetSerialNumberString c.write_handle]) dev 0 rfl rfl ?_
              rw [scan_cons_serial_differs v p w dev k c _ hd ho hm hq hw]
              simp
            · have hq2 : c.serial_res = false := by simpa using hq
              refine cont ([OsCall.SetupDiEnumDeviceInterfaces k, OsCall.SetupDiGetDeviceInterfaceDetail,
          OsCall.SetupDiGetDeviceInterfaceDetail, OsCall.CreateFile c.write_handle,
                OsCall.HidD_GetAttributes c.write_handle,
                OsCall.HidD_GetSerialNumberString c.write_handle,
                OsCall.GetLastError, OsCall.FormatMessage, OsCall.LocalFree dev.last_error])
                { dev with last_error := c.msg } 1 rfl rfl ?_
              rw [scan_cons_serial_fail v p w dev k c _ hd ho hm hq2]
              simp [Nat.add_comm]
        · refine cont ([OsCall.SetupDiEnumDeviceInterfaces k, OsCall.SetupDiGetDeviceInterfaceDetail,
          OsCall.SetupDiGetDeviceInterfaceDetail, OsCall.CreateFile c.write_handle,
            OsCall.HidD_GetAttributes c.write_handle, OsCall.CloseHandle c.write_handle])
            dev 0 rfl rfl ?_
          rw [scan_cons_mismatch v p sn dev k c _ hd ho hm]
          simp
    · have hd2 : c.detail_res = false := by simpa using hd
      refine cont ([OsCall.SetupDiEnumDeviceInterfaces k, OsCall.SetupDiGetDeviceInterfaceDetail,
          OsCall.SetupDiGetDeviceInterfaceDetail]) dev 0 rfl rfl ?_
      cases sn <;> simp [scan, hd2]

theorem hid_open_calls {s : State} (v p : Nat) (sn : Option WString) (os : OpenOs)
    {i : Fin MAX_DEVICES} (hi : find_available (init_devices s).devices = some i) :
    (hid_open s v p sn os).calls =
      [OsCall.SetupDiGetClassDevs] ++
        (scan v p sn { (init_devices s).devices i with valid := 1 } 0 os.candidates).calls ++
        [OsCall.CloseHandle os.device_info_set] := by
  simp only [hid_open, hi]
  split_ifs <;> rfl

theorem init_devices_handle {s : State} (hs : Inv s) (j : Fin MAX_DEVICES) :
    ((init_devices s).devices j).device_handle = INVALID_HANDLE_VALUE ∨
    ((s.devices j).valid ≠ 0 ∧
      ((init_devices s).devices j).device_handle = (s.devices j).device_handle) := by
  by_cases h0 : s.devices_initialized = 0
  · left; simp [init_devices, h0]
  · rw [init_devices_of_initialized h0]
    by_cases hv : (s.devices j).valid = 0
    · left
      by_contra hne
      exact ((hs.2 h0 j).2 hne) hv
    · right; exact ⟨hv, rfl⟩

theorem not_accepted_of_serial {v p : Nat} {w : WString} {c : Candidate}
    (hq : c.serial_res = false ∨ cstr c.ser ≠ cstr w) : accepted v p (some w) c = false := by
  rcases hq with hq | hq <;> simp [accepted, hq]

theorem openAfter_append (L : List HANDLE) (a b : List OsCall) :
    openAfter L (a ++ b) = openAfter (openAfter L a) b := by
  simp [openAfter, List.foldl_append]

theorem freshHandles_append (a b : List OsCall) :
    ∀ L, freshHandles L (a ++ b) = (freshHandles L a && freshHandles (openAfter L a) b) := by
  induction a with
  | nil => intro L; simp [freshHandles, openAfter]
  | cons c a ih =>
    intro L
    show (freshStep L c && freshHandles (openStep L c) (a ++ b)) = _
    rw [ih]
    simp [freshHandles, openAfter, Bool.and_assoc]

theorem filter_ne_of_not_mem {L : List HANDLE} {h : HANDLE} (hL : h ∉ L) :
    L.filter (fun x => decide (x ≠ h)) = L := by
  rw [List.filter_eq_self]
  intro x hx
  simp only [decide_eq_true_eq]
  exact fun hxh => hL (hxh ▸ hx)

theorem openAfter_mismatch {L : List HANDLE} {h : HANDLE} (k : Nat)
    (ho : h ≠ INVALID_HANDLE_VALUE) (hnew : h ∉ L) :
    openAfter L [OsCall.SetupDiEnumDeviceInterfaces k,
      OsCall.SetupDiGetDeviceInterfaceDetail, OsCall.SetupDiGetDeviceInterfaceDetail,
      OsCall.CreateFile h, OsCall.HidD_GetAttributes h, OsCall.CloseHandle h] = L := by
  simp only [openAfter, List.foldl_cons, List.foldl_nil, openStep, if_neg ho]
  rw [List.filter_cons]
  simp only [ne_eq, not_true_eq_false, decide_False, Bool.false_eq_true, if_false]
  exact filter_ne_of_not_mem hnew

theorem openAfter_createfail {L : List HANDLE} {h : HANDLE} (k : Nat) (m : Option WString)
    (ho : h = INVALID_HANDLE_VALUE) (hL : INVALID_HANDLE_VALUE ∉ L) :
    openAfter L [OsCall.SetupDiEnumDeviceInterfaces k,
      OsCall.SetupDiGetDeviceInterfaceDetail, OsCall.SetupDiGetDeviceInterfaceDetail,
      OsCall.CreateFile h, OsCall.GetLastError, OsCall.FormatMessage,
      OsCall.LocalFree m, OsCall.CloseHandle h] = L := by
  simp only [openAfter, List.foldl_cons, List.foldl_nil, openStep, if_pos ho]
  rw [ho]
  exact filter_ne_of_not_mem hL

theorem scan_live (v p : Nat) (sn : Option WString) (cs : List Candidate) :
    ∀ (dev : Device) (k : Nat) (L : List HANDLE), INVALID_HANDLE_VALUE ∉ L →
      freshHandles L (scan v p sn dev k cs).calls = true →
      ScanLive L dev (scan v p sn dev k cs) cs := by
  induction cs with
  | nil =>
    intro dev k L hL _
    refine ⟨?_, ?_, ?_, Or.inl rfl⟩ <;> simp [scan, openAfter, openStep, hL]
  | cons c rest ih =>
    intro dev k L hL hfresh
    -- the loop goes on to the next candidate after issuing `own`
    have cont : ∀ (own : List OsCall) (d : Device) (n : Nat),
        d.device_handle = dev.device_handle →
        scan v p sn dev k (c :: rest) =
          ⟨(scan v p sn d (k + 1) rest).dev, own ++ (scan v p sn d (k + 1) rest).calls, n⟩ →
        INVALID_HANDLE_VALUE ∉ openAfter L own →
        (∀ h ∈ L, h ∈ openAfter L own) →
        (∀ h ∈ openAfter L own, h ∈ L ∨ h = c.write_handle) →
        ScanLive L dev (scan v p sn dev k (c :: rest)) (c :: rest) := by
      intro own d n hdh heq h1 h2 h3
      rw [heq] at hfresh ⊢
      simp only [freshHandles_append, Bool.and_eq_true] at hfresh
      obtain ⟨q1, q2, q3, q4⟩ := ih d (k + 1) (openAfter L own) h1 hfresh.2
      simp only [ScanLive, openAfter_append]
      refine ⟨q1, fun h hh => q2 h (h2 h hh), fun h hh => ?_, ?_⟩
      · rcases q3 h hh with hin | ⟨x, hx, hxh⟩
        · rcases h3 h hin with h4 | h4
          · exact Or.inl h4
          · exact Or.inr ⟨c, List.mem_cons_self _ _, h4.symm⟩
        · exact Or.inr ⟨x, List.mem_cons_of_mem _ hx, hxh⟩
      · rcases q4 with q4 | ⟨q4, q5⟩
        · exact Or.inl (q4.trans hdh)
        · exact Or.inr ⟨q4, fun hin => q5 (h2 _ hin)⟩
    by_cases hd : c.detail_res = true
    · by_cases ho : c.write_handle = INVALID_HANDLE_VALUE
      · refine cont [OsCall.SetupDiEnumDeviceInterfaces k,
          OsCall.SetupDiGetDeviceInterfaceDetail, OsCall.SetupDiGetDeviceInterfaceDetail,
          OsCall.CreateFile c.write_handle, OsCall.GetLastError, OsCall.FormatMessage,
          OsCall.LocalFree dev.last_error, OsCall.CloseHandle c.write_handle]
          { dev with last_error := c.msg }
          ((scan v p sn { dev with last_error := c.msg } (k + 1) rest).nerrs + 1) rfl ?_ ?_ ?_ ?_
        · cases sn <;> simp [scan, register_error, hd, ho]
        · rw [openAfter_createfail k _ ho hL]; exact hL
        · rw [openAfter_createfail k _ ho hL]; exact fun h hh => hh
        · rw [openAfter_createfail k _ ho hL]; exact fun h hh => Or.inl hh
      · by_cases hm : c.VendorID = v ∧ c.ProductID = p
        · -- the candidate matches vendor and product
          cases sn with
          | none =>
            have hs : scan v p none dev k (c :: rest) =
                ⟨{ dev with device_handle := c.write_handle },
                 [OsCall.SetupDiEnumDeviceInterfaces k, OsCall.SetupDiGetDeviceInterfaceDetail,
                  OsCall.SetupDiGetDeviceInterfaceDetail, OsCall.CreateFile c.write_handle,
                  OsCall.HidD_GetAttributes c.write_handle], 0⟩ := by
              simp [scan, hd, ho, hm.1, hm.2]
            rw [hs] at hfresh ⊢
            have hnew : c.write_handle ∉ L := by
              simpa [freshHandles, freshStep, openStep, ho] using hfresh
            simp only [ScanLive, openAfter, List.foldl_cons, List.foldl_nil, openStep, if_neg ho]
            refine ⟨?_, fun h hh => List.mem_cons_of_mem _ hh, fun h hh => ?_,
              Or.inr ⟨List.mem_cons_self _ _, hnew⟩⟩
            · intro hin
              rcases List.mem_cons.1 hin with h1 | h1
              · exact ho h1.symm
              · exact hL h1
            · rcases List.mem_cons.1 hh with h1 | h1
              · exact Or.inr ⟨c, List.mem_cons_self _ _, h1.symm⟩
              · exact Or.inl h1
          | some w =>
            have hnewOf : ∀ own2 : List OsCall,
                freshHandles L ([OsCall.SetupDiEnumDeviceInterfaces k,
                  OsCall.SetupDiGetDeviceInterfaceDetail,
                  OsCall.SetupDiGetDeviceInterfaceDetail,
                  OsCall.CreateFile c.write_handle] ++ own2) = true → c.write_handle ∉ L := by
              intro own2 hf
              simp only [freshHandles_append, Bool.and_eq_true] at hf
              simpa [freshHandles, freshStep, openStep, ho] using hf.1
            by_cases hq : c.serial_res = true
            · by_cases hw : cstr c.ser = cstr w
              · have hs : scan v p (some w) dev k (c :: rest) =
                    ⟨{ dev with device_handle := c.write_handle },
                     [OsCall.SetupDiEnumDeviceInterfaces k,
                      OsCall.SetupDiGetDeviceInterfaceDetail,
                      OsCall.SetupDiGetDeviceInterfaceDetail, OsCall.CreateFile c.write_handle,
                      OsCall.HidD_GetAttributes c.write_handle,
                      OsCall.HidD_GetSerialNumberString c.write_handle], 0⟩ := by
                  have h0 : wcscmp c.ser w = 0 := (wcscmp_eq_zero_iff _ _).2 hw
                  simp [scan, hd, ho, hm.1, hm.2, hq, h0]
                rw [hs] at hfresh ⊢
                have hnew : c.write_handle ∉ L := hnewOf _ hfresh
                simp only [ScanLive, openAfter, List.foldl_cons, List.foldl_nil, openStep,
                  if_neg ho]
                refine ⟨?_, fun h hh => List.mem_cons_of_mem _ hh, fun h hh => ?_,
                  Or.inr ⟨List.mem_cons_self _ _, hnew⟩⟩
                · intro hin
                  rcases List.mem_cons.1 hin with h1 | h1
                  · exact ho h1.symm
                  · exact hL h1
                · rcases List.mem_cons.1 hh with h1 | h1
                  · exact Or.inr ⟨c, List.mem_cons_self _ _, h1.symm⟩
                  · exact Or.inl h1
              · refine cont [OsCall.SetupDiEnumDeviceInterfaces k,
                  OsCall.SetupDiGetDeviceInterfaceDetail,
                  OsCall.SetupDiGetDeviceInterfaceDetail, OsCall.CreateFile c.write_handle,
                  OsCall.HidD_GetAttributes c.write_handle,
                  OsCall.HidD_GetSerialNumberString c.write_handle] dev _ rfl
                  (scan_cons_serial_differs v p w dev k c rest hd ho hm hq hw) ?_ ?_ ?_
                · simp only [openAfter, List.foldl_cons, List.foldl_nil, openStep, if_neg ho]
                  intro hin
                  rcases List.mem_cons.1 hin with h1 | h1
                  · exact ho h1.symm
                  · exact hL h1
                · simp only [openAfter, List.foldl_cons, List.foldl_nil, openStep, if_neg ho]
                  exact fun h hh => List.mem_cons_of_mem _ hh
                · simp only [openAfter, List.foldl_cons, List.foldl_nil, openStep, if_neg ho]
                  intro h hh
                  rcases List.mem_cons.1 hh with h1 | h1
                  · exact Or.inr h1
                  · exact Or.inl h1
            · have hq2 : c.serial_res = false := by simpa using hq
              refine cont [OsCall.SetupDiEnumDeviceInterfaces k,
                OsCall.SetupDiGetDeviceInterfaceDetail,
                OsCall.SetupDiGetDeviceInterfaceDetail, OsCall.CreateFile c.write_handle,
                OsCall.HidD_GetAttributes c.write_handle,
                OsCall.HidD_GetSerialNumberString c.write_handle,
                OsCall.GetLastError, OsCall.FormatMessage, OsCall.LocalFree dev.last_error]
                { dev with last_error := c.msg } _ rfl
                (scan_cons_serial_fail v p w dev k c rest hd ho hm hq2) ?_ ?_ ?_
              · simp only [openAfter, List.foldl_cons, List.foldl_nil, openStep, if_neg ho]
                intro hin
                rcases List.mem_cons.1 hin with h1 | h1
                · exact ho h1.symm
                · exact hL h1
              · simp only [openAfter, List.foldl_cons, List.foldl_nil, openStep, if_neg ho]
                exact fun h hh => List.mem_cons_of_mem _ hh
              · simp only [openAfter, List.foldl_cons, List.foldl_nil, openStep, if_neg ho]
                intro h hh
                rcases List.mem_cons.1 hh with h1 | h1
                · exact Or.inr h1
                · exact Or.inl h1
        · have heq := scan_cons_mismatch v p sn dev k c rest hd ho hm
          have hnew : c.write_handle ∉ L := by
            rw [heq] at hfresh
            simp only [freshHandles_append, Bool.and_eq_true] at hfresh
            simpa [freshHandles, freshStep, openStep, ho] using hfresh.1
          refine cont [OsCall.SetupDiEnumDeviceInterfaces k,
            OsCall.SetupDiGetDeviceInterfaceDetail, OsCall.SetupDiGetDeviceInterfaceDetail,
            OsCall.CreateFile c.write_handle, OsCall.HidD_GetAttributes c.write_handle,
            OsCall.CloseHandle c.write_handle] dev _ rfl heq ?_ ?_ ?_
          · rw [openAfter_mismatch k ho hnew]; exact hL
          · rw [openAfter_mismatch k ho hnew]; exact fun h hh => hh
          · rw [openAfter_mismatch k ho hnew]; exact fun h hh => Or.inl hh
    · have hd2 : c.detail_res = false := by simpa using hd
      refine cont [OsCall.SetupDiEnumDeviceInterfaces k,
        OsCall.SetupDiGetDeviceInterfaceDetail, OsCall.SetupDiGetDeviceInterfaceDetail]
        dev (scan v p sn dev (k + 1) rest).nerrs rfl ?_ ?_ ?_ ?_
      · cases sn <;> simp [scan, hd2]
      · simpa [openAfter, openStep] using hL
      · simp [openAfter, openStep]
      · simp only [openAfter, List.foldl_cons, List.foldl_nil, openStep]
        exact fun h hh => Or.inl hh

theorem scan_create_mem (v p : Nat) (sn : Option WString) (cs : List Candidate) :
    ∀ (dev : Device) (k : Nat),
      (scan v p sn dev k cs).dev.device_handle = dev.device_handle ∨
      OsCall.CreateFile (scan v p sn dev k cs).dev.device_handle ∈
        (scan v p sn dev k cs).calls := by
  induction cs with
  | nil => intro dev k; left; simp [scan]
  | cons c rest ih =>
    intro dev k
    cases sn with
    | none =>
      simp only [scan, register_error]
      split_ifs
      · rcases ih dev (k + 1) with h | h
        · exact Or.inl h
        · right; simp [h]
      · rcases ih { dev with last_error := c.msg } (k + 1) with h | h
        · exact Or.inl h
        · right; simp [h]
      · right; simp
      · rcases ih dev (k + 1) with h | h
        · exact Or.inl h
        · right; simp [h]
    | some w =>
      simp only [scan, register_error]
      split_ifs
      · rcases ih dev (k + 1) with h | h
        · exact Or.inl h
        · right; simp [h]
      · rcases ih { dev with last_error := c.msg } (k + 1) with h | h
        · exact Or.inl h
        · right; simp [h]
      · rcases ih { dev with last_error := c.msg } (k + 1) with h | h
        · exact Or.inl h
        · right; simp [h]
      · right; simp
      · rcases ih dev (k + 1) with h | h
        · exact Or.inl h
        · right; simp [h]
      · rcases ih dev (k + 1) with h | h
        · exact Or.inl h
        · right; simp [h]

theorem live_init {s : State} (hs : Inv s) {L : List HANDLE} (hl : Live s L) :
    Live (init_devices s) L := by
  by_cases h0 : s.devices_initialized = 0
  · refine ⟨fun j hv => ?_, fun j j2 hv => ?_, hl.2.2⟩
    · exact absurd (((inv_init_devices hs).2.1 j).trans (hs.1 h0 j).1) hv
    · exact absurd (((inv_init_devices hs).2.1 j).trans (hs.1 h0 j).1) hv
  · rw [init_devices_of_initialized h0]; exact hl

theorem live_congr {s t : State} {L : List HANDLE} (hl : Live s L)
    (h : ∀ j, (t.devices j).valid = (s.devices j).valid ∧
      (t.devices j).device_handle = (s.devices j).device_handle) : Live t L := by
  refine ⟨fun j hv => ?_, fun j j2 hv hv2 heq => ?_, hl.2.2⟩
  · rw [(h j).2]; exact hl.1 j ((h j).1 ▸ hv)
  · exact hl.2.1 j j2 ((h j).1 ▸ hv) ((h j2).1 ▸ hv2) ((h j).2 ▸ (h j2).2 ▸ heq)

theorem openAfter_hid_write (s : State) (d : Int) (os : IoOs) (L : List HANDLE) :
    openAfter L (hid_write s d os).calls = L := by
  unfold hid_write
  split_ifs <;> simp [openAfter, openStep, register_error]

theorem openAfter_hid_read (s : State) (d : Int) (os : IoOs) (L : List HANDLE) :
    openAfter L (hid_read s d os).calls = L := by
  unfold hid_read
  split_ifs <;> simp [openAfter, openStep, register_error]

theorem openAfter_get_string (s : State) (d : Int) (q : HANDLE → OsCall) (op : String)
    (os : StrOs) (L : List HANDLE)
    (hq : ∀ h, (∀ x, q h ≠ OsCall.CreateFile x) ∧ (∀ x, q h ≠ OsCall.CloseHandle x)) :
    openAfter L (get_string s d q op os).calls = L := by
  have hstep : ∀ h, openStep L (q h) = L := by
    intro h
    have h1 := (hq h).1
    have h2 := (hq h).2
    cases hc : q h <;> simp only [openStep]
    · exact absurd hc (h1 _)
    · exact absurd hc (h2 _)
  unfold get_string
  split_ifs <;> simp only [openAfter, List.foldl_cons, List.foldl_nil, register_error, hstep]
  rfl

theorem live_hid_close {s : State} {L : List HANDLE} (hl : Live s L) (d : Int) :
    Live (hid_close s d).state (openAfter L (hid_close s d).calls) := by
  by_cases hbad : d < 0 ∨ d ≥ MAX_DEVICES ∨ (s.devices (slotOf d)).valid = 0
  · rw [hid_close_bad hbad]; exact hl
  · have hgood : 0 ≤ d ∧ d < MAX_DEVICES ∧ (s.devices (slotOf d)).valid ≠ 0 :=
      ⟨not_lt.1 (fun hc => hbad (Or.inl hc)),
       not_le.1 (fun hc => hbad (Or.inr (Or.inl hc))),
       fun hc => hbad (Or.inr (Or.inr hc))⟩
    rw [hid_close_good hgood]
    simp only [openAfter, List.foldl_cons, List.foldl_nil, openStep]
    have hslot : ∀ j, (Function.update s.devices (slotOf d)
        ⟨0, INVALID_HANDLE_VALUE, (s.devices (slotOf d)).last_error⟩ j).valid ≠ 0 →
        j ≠ slotOf d ∧ (s.devices j).valid ≠ 0 ∧
        Function.update s.devices (slotOf d)
          ⟨0, INVALID_HANDLE_VALUE, (s.devices (slotOf d)).last_error⟩ j = s.devices j := by
      intro j hv
      by_cases hj : j = slotOf d
      · subst hj; simp at hv
      · rw [Function.update_noteq hj] at hv ⊢
        exact ⟨hj, hv, rfl⟩
    refine ⟨fun j hv => ?_, fun j j2 hv hv2 heq => ?_, fun hin => hl.2.2 (List.mem_of_mem_filter hin)⟩
    · obtain ⟨hj, hvs, he⟩ := hslot j hv
      show (Function.update s.devices (slotOf d) _ j).device_handle ∈ _
      rw [he]
      refine List.mem_filter.2 ⟨hl.1 j hvs, ?_⟩
      simp only [decide_eq_true_eq]
      exact fun hsame => hj (hl.2.1 j (slotOf d) hvs hgood.2.2 hsame)
    · obtain ⟨-, hvs, he⟩ := hslot j hv
      obtain ⟨-, hvs2, he2⟩ := hslot j2 hv2
      have heq2 : (Function.update s.devices (slotOf d)
          ⟨0, INVALID_HANDLE_VALUE, (s.devices (slotOf d)).last_error⟩ j).device_handle =
          (Function.update s.devices (slotOf d)
          ⟨0, INVALID_HANDLE_VALUE, (s.devices (slotOf d)).last_error⟩ j2).device_handle := heq
      rw [he, he2] at heq2
      exact hl.2.1 j j2 hvs hvs2 heq2

theorem live_hid_open {s : State} {L : List HANDLE} (hs : Inv s) (hl : Live s L)
    (v p : Nat) (sn : Option WString) (os : OpenOs)
    (hf : freshHandles L (hid_open s v p sn os).calls = true)
    (hd : devInfoApart L (Op.hid_open v p sn os) = true) :
    Live (hid_open s v p sn os).state (openAfter L (hid_open s v p sn os).calls) := by
  have hlt := live_init hs hl
  cases hi : find_available (init_devices s).devices with
  | none =>
    rw [hid_open_full v p sn os hi]
    exact hlt
  | some i =>
    rw [hid_open_calls v p sn os hi] at hf ⊢
    simp only [freshHandles_append, Bool.and_eq_true] at hf
    have hfr : freshHandles L (scan v p sn { (init_devices s).devices i with valid := 1 } 0
        os.candidates).calls = true := by
      have := hf.1.2
      simpa [openAfter, openStep] using this
    obtain ⟨q1, q2, q3, q4⟩ := scan_live v p sn os.candidates
      { (init_devices s).devices i with valid := 1 } 0 L hl.2.2 hfr
    simp only [devInfoApart, Bool.and_eq_true, decide_eq_true_eq, List.all_eq_true,
      Bool.or_eq_true] at hd
    obtain ⟨hdL, hdc⟩ := hd
    have hopen : openAfter L ([OsCall.SetupDiGetClassDevs] ++
        (scan v p sn { (init_devices s).devices i with valid := 1 } 0 os.candidates).calls ++
        [OsCall.CloseHandle os.device_info_set]) =
        (openAfter L (scan v p sn { (init_devices s).devices i with valid := 1 } 0
          os.candidates).calls).filter (fun x => decide (x ≠ os.device_info_set)) := by
      rw [openAfter_append, openAfter_append]
      simp [openAfter, openStep]
    rw [hopen]
    have hkeep : ∀ h ∈ L, h ∈ (openAfter L (scan v p sn
        { (init_devices s).devices i with valid := 1 } 0
          os.candidates).calls).filter (fun x => decide (x ≠ os.device_info_set)) := by
      intro h hh
      refine List.mem_filter.2 ⟨q2 h hh, ?_⟩
      simp only [decide_eq_true_eq]
      exact fun heq => hdL (heq ▸ hh)
    have hinv : INVALID_HANDLE_VALUE ∉ (openAfter L (scan v p sn
        { (init_devices s).devices i with valid := 1 } 0
          os.candidates).calls).filter (fun x => decide (x ≠ os.device_info_set)) :=
      fun hin => q1 (List.mem_of_mem_filter hin)
    have hfree := (find_available_some hi).1
    cases hc : os.candidates.find? (accepted v p sn) with
    | none =>
      obtain ⟨-, -, h3⟩ := hid_open_miss hs v p sn os hi hc
      have hslot : ∀ j, ((hid_open s v p sn os).state.devices j).valid ≠ 0 →
          ((init_devices s).devices j).valid ≠ 0 ∧
          (hid_open s v p sn os).state.devices j = (init_devices s).devices j := by
        intro j hv
        rw [h3] at hv ⊢
        by_cases hj : j = i
        · subst hj; simp at hv
        · rw [Function.update_noteq hj] at hv ⊢
          exact ⟨hv, rfl⟩
      refine ⟨fun j hv => ?_, fun j j2 hv hv2 heq => ?_, hinv⟩
      · obtain ⟨h1, h2⟩ := hslot j hv
        rw [h2]; exact hkeep _ (hlt.1 j h1)
      · obtain ⟨h1, h2⟩ := hslot j hv
        obtain ⟨h4, h5⟩ := hslot j2 hv2
        rw [h2, h5] at heq
        exact hlt.2.1 j j2 h1 h4 heq
    | some c =>
      obtain ⟨-, -, h3⟩ := hid_open_hit hs v p sn os hi hc
      have hne := accepted_handle hc
      have hcm : c ∈ os.candidates := List.mem_of_find?_eq_some hc
      have hh := scan_handle v p sn os.candidates
        { (init_devices s).devices i with valid := 1 } 0
      rw [hc] at hh
      simp only at hh
      have hold : ((init_devices s).devices i).device_handle = INVALID_HANDLE_VALUE := by
        by_contra hcon
        exact ((inv_init_devices hs).1 i).2 hcon hfree
      have hnew : c.write_handle ∈ openAfter L (scan v p sn
          { (init_devices s).devices i with valid := 1 } 0 os.candidates).calls ∧
          c.write_handle ∉ L := by
        rcases q4 with q4 | q4
        · rw [hh] at q4
          exact absurd (q4.trans hold) hne
        · rw [hh] at q4; exact q4
      have hnew2 : c.write_handle ∈ (openAfter L (scan v p sn
          { (init_devices s).devices i with valid := 1 } 0
            os.candidates).calls).filter (fun x => decide (x ≠ os.device_info_set)) := by
        refine List.mem_filter.2 ⟨hnew.1, ?_⟩
        simp only [decide_eq_true_eq]
        rcases hdc c hcm with h1 | h1
        · exact absurd h1 hne
        · exact h1
      have hslot : ∀ j, j ≠ i → ((hid_open s v p sn os).state.devices j).valid ≠ 0 →
          ((init_devices s).devices j).valid ≠ 0 ∧
          (hid_open s v p sn os).state.devices j = (init_devices s).devices j := by
        intro j hj hv
        rw [h3] at hv ⊢
        rw [Function.update_noteq hj] at hv ⊢
        exact ⟨hv, rfl⟩
      have hself : ((hid_open s v p sn os).state.devices i).device_handle = c.write_handle := by
        rw [h3]; simp
      refine ⟨fun j hv => ?_, fun j j2 hv hv2 heq => ?_, hinv⟩
      · by_cases hj : j = i
        · subst hj; rw [hself]; exact hnew2
        · obtain ⟨h1, h2⟩ := hslot j hj hv
          rw [h2]; exact hkeep _ (hlt.1 j h1)
      · by_cases hj : j = i
        · by_cases hj2 : j2 = i
          · rw [hj, hj2]
          · exfalso
            obtain ⟨h4, h5⟩ := hslot j2 hj2 hv2
            rw [hj, hself, h5] at heq
            exact hnew.2 (heq ▸ hlt.1 j2 h4)
        · by_cases hj2 : j2 = i
          · exfalso
            obtain ⟨h1, h2⟩ := hslot j hj hv
            rw [hj2, hself, h2] at heq
            exact hnew.2 (heq ▸ hlt.1 j h1)
          · obtain ⟨h1, h2⟩ := hslot j hj hv
            obtain ⟨h4, h5⟩ := hslot j2 hj2 hv2
            rw [h2, h5] at heq
            exact hlt.2.1 j j2 h1 h4 heq

theorem live_exec {s : State} {L : List HANDLE} (hs : Inv s) (hl : Live s L) (op : Op)
    (hf : freshHandles L (exec s op).calls = true) (hd : devInfoApart L op = true) :
    Live (exec s op).state (openAfter L (exec s op).calls) := by
  cases op with
  | hid_open v p sn os => exact live_hid_open hs hl v p sn os hf hd
  | hid_write d os =>
    simp only [exec, Result.as]
    rw [openAfter_hid_write]
    exact live_congr hl (valid_hid_write s d os)
  | hid_read d os =>
    simp only [exec, Result.as]
    rw [openAfter_hid_read]
    exact live_congr hl (valid_hid_read s d os)
  | hid_close d => exact live_hid_close hl d
  | hid_get_manufacturer_string d os =>
    simp only [exec, Result.as, hid_get_manufacturer_string]
    rw [openAfter_get_string _ _ _ _ _ _ (fun h => ⟨fun x => by simp, fun x => by simp⟩)]
    exact live_congr hl (valid_get_string s d _ _ os)
  | hid_get_product_string d os =>
    simp only [exec, Result.as, hid_get_product_string]
    rw [openAfter_get_string _ _ _ _ _ _ (fun h => ⟨fun x => by simp, fun x => by simp⟩)]
    exact live_congr hl (valid_get_string s d _ _ os)
  | hid_get_serial_number_string d os =>
    simp only [exec, Result.as, hid_get_serial_number_string]
    rw [openAfter_get_string _ _ _ _ _ _ (fun h => ⟨fun x => by simp, fun x => by simp⟩)]
    exact live_congr hl (valid_get_string s d _ _ os)
  | hid_get_indexed_string d k os =>
    simp only [exec, Result.as, hid_get_indexed_string]
    rw [openAfter_get_string _ _ _ _ _ _ (fun h => ⟨fun x => by simp, fun x => by simp⟩)]
    exact live_congr hl (valid_get_string s d _ _ os)
  | hid_error d => exact hl

theorem live_run (ops : List Op) :
    ∀ {s : State} {L : List HANDLE}, Inv s → Live s L → osSane s L ops = true →
      Live (run s ops) (openAfter L (callsOf s ops)) := by
  induction ops with
  | nil => intro s L _ hl _; exact hl
  | cons op ops ih =>
    intro s L hs hl hsane
    simp only [osSane, Bool.and_eq_true] at hsane
    have h1 := live_exec hs hl op hsane.1.1 hsane.1.2
    have h2 := ih (inv_exec hs op) h1 hsane.2
    simp only [callsOf, openAfter_append]
    exact h2

theorem live_boot : Live boot [] := by
  refine ⟨fun j hv => absurd rfl hv, fun j j2 hv => absurd rfl hv, by simp⟩

theorem run_append (ops post : List Op) :
    ∀ s : State, run s (ops ++ post) = run (run s ops) post := by
  induction ops with
  | nil => intro s; rfl
  | cons op ops ih => intro s; exact ih _

theorem initialized_exec {s : State} (hs : Inv s) (h : s.devices_initialized ≠ 0) (op : Op) :
    (exec s op).state.devices_initialized ≠ 0 := by
  cases op with
  | hid_open v p sn os => exact (inv_hid_open hs v p sn os).2
  | hid_write d os => simp only [exec, Result.as, hid_write]; split_ifs <;> exact h
  | hid_read d os => simp only [exec, Result.as, hid_read]; split_ifs <;> exact h
  | hid_close d => simp only [exec, Result.as, hid_close]; split_ifs <;> exact h
  | hid_get_manufacturer_string d os =>
    simp only [exec, Result.as, hid_get_manufacturer_string, get_string]; split_ifs <;> exact h
  | hid_get_product_string d os =>
    simp only [exec, Result.as, hid_get_product_string, get_string]; split_ifs <;> exact h
  | hid_get_serial_number_string d os =>
    simp only [exec, Result.as, hid_get_serial_number_string, get_string]; split_ifs <;> exact h
  | hid_get_indexed_string d k os =>
    simp only [exec, Result.as, hid_get_indexed_string, get_string]; split_ifs <;> exact h
  | hid_error d => exact h

theorem initialized_run (ops : List Op) :
    ∀ {s : State}, Inv s → s.devices_initialized ≠ 0 → (run s ops).devices_initialized ≠ 0 := by
  induction ops with
  | nil => intro s _ h; exact h
  | cons op ops ih => intro s hs h; exact ih (inv_exec hs op) (initialized_exec hs h op)

theorem inv_of_slotInv {s : State} (h0 : s.devices_initialized ≠ 0) (h : SlotInv s) : Inv s :=
  ⟨fun hc => absurd hc h0, fun _ => h⟩

theorem created_hid_open {s : State} (hs : Inv s) (v p : Nat) (sn : Option WString)
    (os : OpenOs) (j : Fin MAX_DEVICES)
    (hv : ((hid_open s v p sn os).state.devices j).valid ≠ 0) :
    ((s.devices j).valid ≠ 0 ∧
      ((hid_open s v p sn os).state.devices j).device_handle = (s.devices j).device_handle) ∨
    OsCall.CreateFile ((hid_open s v p sn os).state.devices j).device_handle ∈
      (hid_open s v p sn os).calls := by
  have hold : ∀ j, ((init_devices s).devices j).valid ≠ 0 →
      (s.devices j).valid ≠ 0 ∧
      ((init_devices s).devices j).device_handle = (s.devices j).device_handle := by
    intro j hvj
    rcases init_devices_handle hs j with h1 | h1
    · exact absurd h1 (((inv_init_devices hs).1 j).1 hvj)
    · exact h1
  cases hi : find_available (init_devices s).devices with
  | none =>
    rw [hid_open_full v p sn os hi] at hv ⊢
    exact Or.inl (hold j hv)
  | some i =>
    cases hc : os.candidates.find? (accepted v p sn) with
    | none =>
      obtain ⟨-, -, h3⟩ := hid_open_miss hs v p sn os hi hc
      rw [h3] at hv ⊢
      by_cases hj : j = i
      · subst hj; simp at hv
      · rw [Function.update_noteq hj] at hv ⊢
        exact Or.inl (hold j hv)
    | some c =>
      obtain ⟨-, -, h3⟩ := hid_open_hit hs v p sn os hi hc
      by_cases hj : j = i
      · right
        subst hj
        have hself : ((hid_open s v p sn os).state.devices j).device_handle
            = c.write_handle := by rw [h3]; simp
        have hh := scan_handle v p sn os.candidates
          { (init_devices s).devices j with valid := 1 } 0
        rw [hc] at hh
        simp only at hh
        have hinvalid : ((init_devices s).devices j).device_handle = INVALID_HANDLE_VALUE := by
          by_contra hcon
          exact ((inv_init_devices hs).1 j).2 hcon (find_available_some hi).1
        rw [hself, hid_open_calls v p sn os hi]
        rcases scan_create_mem v p sn os.candidates
          { (init_devices s).devices j with valid := 1 } 0 with h1 | h1
        · rw [hh] at h1
          exact absurd (h1.trans hinvalid) (accepted_handle hc)
        · rw [hh] at h1
          exact List.mem_append.2 (Or.inl (List.mem_append.2 (Or.inr h1)))
      · rw [h3] at hv ⊢
        rw [Function.update_noteq hj] at hv ⊢
        exact Or.inl (hold j hv)

theorem created_exec {s : State} (hs : Inv s) (op : Op) (j : Fin MAX_DEVICES)
    (hv : ((exec s op).state.devices j).valid ≠ 0) :
    ((s.devices j).valid ≠ 0 ∧
      ((exec s op).state.devices j).device_handle = (s.devices j).device_handle) ∨
    OsCall.CreateFile ((exec s op).state.devices j).device_handle ∈ (exec s op).calls := by
  by_cases ho : ∃ v p sn os, op = Op.hid_open v p sn os
  · obtain ⟨v, p, sn, os, rfl⟩ := ho
    exact created_hid_open hs v p sn os j hv
  · have ho2 : ∀ v p sn os, op ≠ Op.hid_open v p sn os := fun v p sn os h => ho ⟨v, p, sn, os, h⟩
    left
    by_cases hcl : ∃ d, op = Op.hid_close d
    · obtain ⟨d, rfl⟩ := hcl
      have hv2 : ((hid_close s d).state.devices j).valid ≠ 0 := hv
      refine ⟨valid_hid_close s d j hv2, ?_⟩
      show ((hid_close s d).state.devices j).device_handle = _
      by_cases hbad : d < 0 ∨ d ≥ MAX_DEVICES ∨ (s.devices (slotOf d)).valid = 0
      · rw [hid_close_bad hbad]
      · have hgood : 0 ≤ d ∧ d < MAX_DEVICES ∧ (s.devices (slotOf d)).valid ≠ 0 :=
          ⟨not_lt.1 (fun hc => hbad (Or.inl hc)),
           not_le.1 (fun hc => hbad (Or.inr (Or.inl hc))),
           fun hc => hbad (Or.inr (Or.inr hc))⟩
        rw [hid_close_good hgood] at hv2 ⊢
        by_cases hj : j = slotOf d
        · subst hj; simp at hv2
        · simp [Function.update_noteq hj]
    · have hcl2 : ∀ d, op ≠ Op.hid_close d := fun d h => hcl ⟨d, h⟩
      have h := valid_exec_eq s op hcl2 ho2 j
      exact ⟨h.1 ▸ hv, h.2.1⟩

theorem created_run (ops : List Op) :
    ∀ {s : State}, Inv s → ∀ j : Fin MAX_DEVICES, ((run s ops).devices j).valid ≠ 0 →
      ((s.devices j).valid ≠ 0 ∧
        ((run s ops).devices j).device_handle = (s.devices j).device_handle) ∨
      OsCall.CreateFile ((run s ops).devices j).device_handle ∈ callsOf s ops := by
  induction ops with
  | nil => intro s _ j hv; exact Or.inl ⟨hv, rfl⟩
  | cons op ops ih =>
    intro s hs j hv
    rcases ih (inv_exec hs op) j hv with ⟨h1, h2⟩ | h1
    · rcases created_exec hs op j h1 with ⟨h3, h4⟩ | h3
      · exact Or.inl ⟨h3, h2.trans h4⟩
      · right
        show OsCall.CreateFile ((run (exec s op).state ops).devices j).device_handle ∈ _
        rw [h2]
        exact List.mem_append.2 (Or.inl h3)
    · exact Or.inr (List.mem_append.2 (Or.inr h1))

theorem good_of_not_bad {s : State} {device : Int}
    (h : ¬ (device < 0 ∨ device ≥ MAX_DEVICES ∨ (s.devices (slotOf device)).valid = 0)) :
    0 ≤ device ∧ device < MAX_DEVICES ∧ (s.devices (slotOf device)).valid ≠ 0 :=
  ⟨not_lt.1 (fun hc => h (Or.inl hc)),
   not_le.1 (fun hc => h (Or.inr (Or.inl hc))),
   fun hc => h (Or.inr (Or.inr hc))⟩

theorem other_hid_write (s : State) (device : Int) (os : IoOs) (j : Fin MAX_DEVICES)
    (hj : j ≠ slotOf device) : (hid_write s device os).state.devices j = s.devices j := by
  unfold hid_write
  split_ifs <;> simp [Function.update_noteq hj]

theorem other_hid_read (s : State) (device : Int) (os : IoOs) (j : Fin MAX_DEVICES)
    (hj : j ≠ slotOf device) : (hid_read s device os).state.devices j = s.devices j := by
  unfold hid_read
  split_ifs <;> simp [Function.update_noteq hj]

theorem other_get_string (s : State) (device : Int) (q : HANDLE → OsCall) (op : String)
    (os : StrOs) (j : Fin MAX_DEVICES) (hj : j ≠ slotOf device) :
    (get_string s device q op os).state.devices j = s.devices j := by
  unfold get_string
  split_ifs <;> simp [Function.update_noteq hj]

theorem other_hid_close (s : State) (device : Int) (j : Fin MAX_DEVICES)
    (hj : j ≠ slotOf device) : (hid_close s device).state.devices j = s.devices j := by
  unfold hid_close
  split_ifs <;> simp [Function.update_noteq hj]

theorem hid_write_state_ok (s : State) (device : Int) {os : IoOs} (hres : os.res = true) :
    (hid_write s device os).state = s := by
  by_cases hbad : device < 0 ∨ device ≥ MAX_DEVICES ∨ (s.devices (slotOf device)).valid = 0
  · rw [hid_write_bad hbad]
  · rw [hid_write_ok (good_of_not_bad hbad) hres]

theorem hid_read_state_ok (s : State) (device : Int) {os : IoOs} (hres : os.res = true) :
    (hid_read s device os).state = s := by
  by_cases hbad : device < 0 ∨ device ≥ MAX_DEVICES ∨ (s.devices (slotOf device)).valid = 0
  · rw [hid_read_bad hbad]
  · rw [hid_read_ok (good_of_not_bad hbad) hres]

theorem get_string_state_ok (s : State) (device : Int) (q : HANDLE → OsCall) (op : String)
    {os : StrOs} (hres : os.res = true) : (get_string s device q op os).state = s := by
  by_cases hbad : device < 0 ∨ device ≥ MAX_DEVICES ∨ (s.devices (slotOf device)).valid = 0
  · rw [get_string_bad hbad]
  · rw [get_string_ok (good_of_not_bad hbad) q op hres]

theorem hid_open_errs_slot {s : State} (hs : Inv s) (v p : Nat) (sn : Option WString)
    (os : OpenOs) (j : Fin MAX_DEVICES) (hj : j ∈ (hid_open s v p sn os).errs) :
    (s.devices j).valid = 0 ∧ ∀ k, k < j → (s.devices k).valid ≠ 0 := by
  have hval := (inv_init_devices hs).2.1
  cases hi : find_available (init_devices s).devices with
  | none => rw [hid_open_full v p sn os hi] at hj; exact absurd hj (List.not_mem_nil _)
  | some i =>
    have herr : (hid_open s v p sn os).errs =
        List.replicate (scan v p sn { (init_devices s).devices i with valid := 1 } 0
          os.candidates).nerrs i := by
      simp only [hid_open, hi]
      split_ifs <;> rfl
    rw [herr] at hj
    have hji : j = i := List.eq_of_mem_replicate hj
    subst hji
    obtain ⟨h0, hlt⟩ := find_available_some hi
    exact ⟨(hval j) ▸ h0, fun k hk => (hval k) ▸ hlt k hk⟩

/-! ## The claims -/

/-- C4: a handle that is negative, is at least 64, or indexes a slot whose valid
flag is 0 (in particular one never returned by a successful `hid_open` of the
run so far, or one just closed) is rejected by `hid_write`, `hid_read` and the
four string getters: each returns -1, issues no operating-system call, records
no error and leaves the whole table unchanged. -/
theorem invalid_handle_rejected (s : State) (device : Int)
    (h : device < 0 ∨ device ≥ MAX_DEVICES ∨ (s.devices (slotOf device)).valid = 0 ∨
      (∃ ops, s = run boot ops ∧ device ∉ openedBy boot ops) ∨
      (∃ s0, s = (hid_close s0 device).state))
    (io : IoOs) (st : StrOs) (string_index : Int) :
    hid_write s device io = ⟨-1, s, [], []⟩ ∧
    hid_read s device io = ⟨-1, s, [], []⟩ ∧
    hid_get_manufacturer_string s device st = ⟨-1, s, [], []⟩ ∧
    hid_get_product_string s device st = ⟨-1, s, [], []⟩ ∧
    hid_get_serial_number_string s device st = ⟨-1, s, [], []⟩ ∧
    hid_get_indexed_string s device string_index st = ⟨-1, s, [], []⟩ := by
  have key : device < 0 ∨ device ≥ MAX_DEVICES ∨ (s.devices (slotOf device)).valid = 0 := by
    by_cases h0 : device < 0
    · exact Or.inl h0
    by_cases h1 : device ≥ MAX_DEVICES
    · exact Or.inr (Or.inl h1)
    refine Or.inr (Or.inr ?_)
    rcases h with h | h | h | ⟨ops, rfl, hno⟩ | ⟨s0, rfl⟩
    · exact absurd h h0
    · exact absurd h h1
    · exact h
    · by_contra hv
      rcases valid_run inv_boot ops (slotOf device) hv with hb | hb
      · exact hb rfl
      · rw [slotOf_val (not_lt.1 h0) (not_le.1 h1)] at hb
        exact hno hb
    · by_cases hv : (s0.devices (slotOf device)).valid = 0
      · rw [hid_close_bad (Or.inr (Or.inr hv))]; exact hv
      · rw [hid_close_good ⟨not_lt.1 h0, not_le.1 h1, hv⟩]; simp
  exact ⟨hid_write_bad key io, hid_read_bad key io, get_string_bad key _ _ st,
    get_string_bad key _ _ st, get_string_bad key _ _ st, get_string_bad key _ _ st⟩

/-- Witness for C4: in the table reached by one successful `hid_open`, handle 1
was never returned, and writing to it is rejected. -/
theorem invalid_handle_rejected_witness :
    (oneOpen.devices (slotOf 1)).valid = 0 ∧
    hid_write oneOpen 1 ⟨true, 8, none⟩ = ⟨-1, oneOpen, [], []⟩ :=
  ⟨by decide,
   (invalid_handle_rejected oneOpen 1 (Or.inr (Or.inr (Or.inl (by decide))))
      ⟨true, 8, none⟩ ⟨true, none⟩ 0).1⟩

/-- C6: `hid_close` is idempotent and silent on bad handles.  A second
`hid_close(h)` leaves the table of the first unchanged and issues no call; on a
handle out of range or a free slot `hid_close` changes nothing and issues no
call; on a valid handle it issues exactly one `CloseHandle`, on the slot's
connection, resets the connection handle to the sentinel, clears the valid
flag, and touches nothing else. -/
theorem hid_close_idempotent (s : State) (h : Int) :
    (hid_close (hid_close s h).state h).state = (hid_close s h).state ∧
    (hid_close (hid_close s h).state h).calls = [] ∧
    ((h < 0 ∨ h ≥ MAX_DEVICES ∨ (s.devices (slotOf h)).valid = 0) →
      (hid_close s h).state = s ∧ (hid_close s h).calls = []) ∧
    ((0 ≤ h ∧ h < MAX_DEVICES ∧ (s.devices (slotOf h)).valid ≠ 0) →
      (hid_close s h).calls = [OsCall.CloseHandle (s.devices (slotOf h)).device_handle] ∧
      ((hid_close s h).state.devices (slotOf h)).device_handle = INVALID_HANDLE_VALUE ∧
      ((hid_close s h).state.devices (slotOf h)).valid = 0 ∧
      ((hid_close s h).state.devices (slotOf h)).last_error =
        (s.devices (slotOf h)).last_error ∧
      (∀ j, j ≠ slotOf h → (hid_close s h).state.devices j = s.devices j) ∧
      (hid_close s h).state.devices_initialized = s.devices_initialized) := by
  have hsecond : hid_close (hid_close s h).state h = ⟨(), (hid_close s h).state, [], []⟩ := by
    by_cases hbad : h < 0 ∨ h ≥ MAX_DEVICES ∨ (s.devices (slotOf h)).valid = 0
    · rw [hid_close_bad hbad]; exact hid_close_bad hbad
    · have hgood : 0 ≤ h ∧ h < MAX_DEVICES ∧ (s.devices (slotOf h)).valid ≠ 0 :=
        ⟨not_lt.1 (fun hc => hbad (Or.inl hc)),
         not_le.1 (fun hc => hbad (Or.inr (Or.inl hc))),
         fun hc => hbad (Or.inr (Or.inr hc))⟩
      rw [hid_close_good hgood]
      exact hid_close_bad (Or.inr (Or.inr (by simp)))
  refine ⟨by rw [hsecond], by rw [hsecond], ?_, ?_⟩
  · intro hbad
    rw [hid_close_bad hbad]
    exact ⟨rfl, rfl⟩
  · intro hgood
    rw [hid_close_good hgood]
    refine ⟨rfl, by simp, by simp, by simp, fun j hj => by simp [Function.update_noteq hj], rfl⟩

/-- Witness for C6: closing the valid handle 0 of `oneOpen` issues one
`CloseHandle` on the stored connection and frees the slot. -/
theorem hid_close_idempotent_witness :
    (0 ≤ (0 : Int) ∧ (0 : Int) < MAX_DEVICES ∧ (oneOpen.devices (slotOf 0)).valid ≠ 0) ∧
    (hid_close oneOpen 0).calls = [OsCall.CloseHandle (oneOpen.devices (slotOf 0)).device_handle] ∧
    ((hid_close oneOpen 0).state.devices (slotOf 0)).valid = 0 :=
  ⟨by decide,
   ((hid_close_idempotent oneOpen 0).2.2.2 (by decide)).1,
   ((hid_close_idempotent oneOpen 0).2.2.2 (by decide)).2.2.1⟩

/-- C1: device selection in `hid_open` is first-match-wins, the serial number
being a strict extra predicate.  In every reachable table with a free slot:
if some candidate is accepted (path resolved, `CreateFile` succeeded, vendor and
product equal the request and, when a serial is requested, the serial query
succeeded and the serial string equals the requested one), `hid_open` returns
the index of the first free slot and that slot, now valid, stores the
connection of the FIRST such candidate (no candidate enumerated before it is
accepted), which matches vendor, product and (when requested) serial; if no
candidate is accepted, `hid_open` returns -1. -/
theorem hid_open_first_match (ops : List Op) (vendor_id product_id : Nat)
    (serial_number : Option WString) (os : OpenOs)
    (hfree : ∃ i, ((run boot ops).devices i).valid = 0) :
    (∀ c, os.candidates.find? (accepted vendor_id product_id serial_number) = some c →
      (∃ before after, os.candidates = before ++ c :: after ∧
        ∀ x ∈ before, accepted vendor_id product_id serial_number x = false) ∧
      (c.VendorID = vendor_id ∧ c.ProductID = product_id ∧
        ∀ sn, serial_number = some sn → c.serial_res = true ∧ cstr c.ser = cstr sn) ∧
      ∃ i : Fin MAX_DEVICES,
        ((run boot ops).devices i).valid = 0 ∧
        (∀ j, j < i → ((run boot ops).devices j).valid ≠ 0) ∧
        (hid_open (run boot ops) vendor_id product_id serial_number os).ret = (i.val : Int) ∧
        ((hid_open (run boot ops) vendor_id product_id serial_number os).state.devices i).valid
          = 1 ∧
        ((hid_open (run boot ops) vendor_id product_id serial_number
          os).state.devices i).device_handle = c.write_handle) ∧
    (os.candidates.find? (accepted vendor_id product_id serial_number) = none →
      (hid_open (run boot ops) vendor_id product_id serial_number os).ret = -1) := by
  have hs : Inv (run boot ops) := inv_run inv_boot ops
  obtain ⟨i, hi, h0, hlt⟩ := first_free hs hfree
  constructor
  · intro c hc
    refine ⟨?_, ?_, ?_⟩
    · obtain ⟨-, before, after, h1, h2⟩ := List.find?_eq_some.1 hc
      exact ⟨before, after, h1, fun x hx => by simpa using h2 x hx⟩
    · have hacc := List.find?_some hc
      simp only [accepted, Bool.and_eq_true, decide_eq_true_eq] at hacc
      refine ⟨hacc.1.1.2, hacc.1.2, ?_⟩
      intro sn hsn
      subst hsn
      simpa using hacc.2
    · obtain ⟨h1, -, h3⟩ := hid_open_hit hs vendor_id product_id serial_number os hi hc
      refine ⟨i, h0, hlt, h1, ?_, ?_⟩ <;> rw [h3] <;> simp
  · intro hc
    exact (hid_open_miss hs vendor_id product_id serial_number os hi hc).1

/-- Witness for C1: devices with serials "A" and "B" (in that order), both
0x04D8/0x003F; `hid_open(0x04D8, 0x3F, "B")` on the fresh table returns a slot
holding B's connection. -/
theorem hid_open_first_match_witness :
    (∃ i, ((run boot []).devices i).valid = 0) ∧
    twoDevices.candidates.find? (accepted 0x04D8 0x3F (some [66])) = some deviceB ∧
    ∃ i : Fin MAX_DEVICES,
      ((run boot []).devices i).valid = 0 ∧
      (∀ j, j < i → ((run boot []).devices j).valid ≠ 0) ∧
      (hid_open (run boot []) 0x04D8 0x3F (some [66]) twoDevices).ret = (i.val : Int) ∧
      ((hid_open (run boot []) 0x04D8 0x3F (some [66]) twoDevices).state.devices i).valid = 1 ∧
      ((hid_open (run boot []) 0x04D8 0x3F (some [66]) twoDevices).state.devices i).device_handle
        = deviceB.write_handle :=
  ⟨⟨0, rfl⟩, by decide,
   ((hid_open_first_match [] 0x04D8 0x3F (some [66]) twoDevices ⟨0, rfl⟩).1 deviceB
      (by decide)).2.2⟩

/-- C2: a `hid_open` that accepts no device does not leak the slot it claimed.
In every reachable table, when none of the candidates is accepted, `hid_open`
returns -1, the valid flag of every slot is what it was before the call, and
the number of slots in use is unchanged. -/
theorem hid_open_no_leak (ops : List Op) (vendor_id product_id : Nat)
    (serial_number : Option WString) (os : OpenOs)
    (hnone : ∀ c ∈ os.candidates, accepted vendor_id product_id serial_number c = false) :
    (hid_open (run boot ops) vendor_id product_id serial_number os).ret = -1 ∧
    (∀ i, ((hid_open (run boot ops) vendor_id product_id serial_number os).state.devices i).valid
      = ((run boot ops).devices i).valid) ∧
    inUse (hid_open (run boot ops) vendor_id product_id serial_number os).state
      = inUse (run boot ops) := by
  have hs : Inv (run boot ops) := inv_run inv_boot ops
  have hc := find_none_of_forall hnone
  have hret : (hid_open (run boot ops) vendor_id product_id serial_number os).ret = -1 := by
    rcases hid_open_ret_cases hs vendor_id product_id serial_number os with h | ⟨i, -, -, c, hc2⟩
    · exact h
    · rw [hc] at hc2; exact absurd hc2 (by simp)
  have hval : ∀ i, ((hid_open (run boot ops) vendor_id product_id serial_number
      os).state.devices i).valid = ((run boot ops).devices i).valid := by
    intro i
    rw [hid_open_valid hs, hret]
    have : ¬ ((-1 : Int) = (i.val : Int)) := by omega
    rw [if_neg this]
  exact ⟨hret, hval, inUse_congr hval⟩

/-- Witness for C2: with slot 0 in use, a request for a serial no device has
fails and leaves one slot in use. -/
theorem hid_open_no_leak_witness :
    (∀ c ∈ twoDevices.candidates, accepted 0x04D8 0x3F (some [67]) c = false) ∧
    (hid_open (run boot [Op.hid_open 0x04D8 0x3F none twoDevices]) 0x04D8 0x3F (some [67])
      twoDevices).ret = -1 ∧
    inUse (hid_open (run boot [Op.hid_open 0x04D8 0x3F none twoDevices]) 0x04D8 0x3F (some [67])
      twoDevices).state = inUse (run boot [Op.hid_open 0x04D8 0x3F none twoDevices]) :=
  ⟨by decide,
   (hid_open_no_leak [Op.hid_open 0x04D8 0x3F none twoDevices] 0x04D8 0x3F (some [67])
      twoDevices (by decide)).1,
   (hid_open_no_leak [Op.hid_open 0x04D8 0x3F none twoDevices] 0x04D8 0x3F (some [67])
      twoDevices (by decide)).2.2⟩

/-- C3: table exhaustion.  Start from the table of program start and perform
any calls among which there is no `hid_close` and exactly 64 successful
`hid_open`.  Then the handles these returned are 0, 1, ..., 63 in this order
(64 distinct indices), and every further `hid_open`, whatever the request and
whatever devices the system reports, returns -1, issues no operating-system
call (no enumeration), records no error and leaves the table unchanged. -/
theorem table_exhaustion (ops : List Op)
    (hnoclose : ∀ op ∈ ops, ∀ d, op ≠ Op.hid_close d)
    (h64 : (openedBy boot ops).length = 64)
    (vendor_id product_id : Nat) (serial_number : Option WString) (os : OpenOs) :
    openedBy boot ops = (List.range 64).map Int.ofNat ∧
    hid_open (run boot ops) vendor_id product_id serial_number os =
      ⟨-1, run boot ops, [], []⟩ := by
  obtain ⟨m, hm1, hm2⟩ := firstInUse_run ops inv_boot firstInUse_boot hnoclose
  have hm : m = 64 := by
    rw [hm1] at h64
    simpa using h64
  subst hm
  have hs : Inv (run boot ops) := inv_run inv_boot ops
  have hall : ∀ i, ((run boot ops).devices i).valid ≠ 0 := by
    intro i
    exact (hm2 i).2 (by have : i.val < 64 := i.isLt; omega)
  have hinit : (run boot ops).devices_initialized ≠ 0 := by
    intro h0
    exact hall ⟨0, by decide⟩ (hs.1 h0 _).1
  refine ⟨by rw [hm1, List.range_eq_range'], ?_⟩
  have hnone : find_available (init_devices (run boot ops)).devices = none := by
    rw [init_devices_of_initialized hinit]
    exact find_available_none.2 hall
  rw [hid_open_full vendor_id product_id serial_number os hnone,
    init_devices_of_initialized hinit]

set_option maxRecDepth 100000 in
/-- Witness for C3: after 64 successful `hid_open(0x04D8, 0x3F, NULL)` the next
`hid_open` fails without touching the system or the table. -/
theorem table_exhaustion_witness :
    (∀ op ∈ List.replicate 64 (Op.hid_open 0x04D8 0x3F none twoDevices),
      ∀ d, op ≠ Op.hid_close d) ∧
    (openedBy boot (List.replicate 64 (Op.hid_open 0x04D8 0x3F none twoDevices))).length = 64 ∧
    hid_open (run boot (List.replicate 64 (Op.hid_open 0x04D8 0x3F none twoDevices)))
      0x04D8 0x3F none twoDevices =
      ⟨-1, run boot (List.replicate 64 (Op.hid_open 0x04D8 0x3F none twoDevices)), [], []⟩ :=
  ⟨fun op hop d => by rw [List.eq_of_mem_replicate hop]; exact Op.noConfusion,
   by decide,
   (table_exhaustion (List.replicate 64 (Op.hid_open 0x04D8 0x3F none twoDevices))
      (fun op hop d => by rw [List.eq_of_mem_replicate hop]; exact Op.noConfusion)
      (by decide) 0x04D8 0x3F none twoDevices).2⟩

/-- C5 (as amended): on a valid handle, when the forwarded operating-system call
fails, `hid_write`, `hid_read` and each string getter return -1 and afterwards
`hid_error` returns what `register_error` stored for that failure, namely the
pointer `FormatMessage` left in `msg`, whatever was stored before; when the
call succeeds, `hid_write` and `hid_read` return the byte count reported by the
system provided it is below 2^31, and the string getters return 0. -/
theorem os_failure_reported (s : State) (h : Int)
    (hv : 0 ≤ h ∧ h < MAX_DEVICES ∧ (s.devices (slotOf h)).valid ≠ 0)
    (io : IoOs) (st : StrOs) (string_index : Int) :
    (io.res = false →
      (hid_write s h io).ret = -1 ∧ hid_error (hid_write s h io).state h = io.msg ∧
      (hid_read s h io).ret = -1 ∧ hid_error (hid_read s h io).state h = io.msg) ∧
    (io.res = true → io.bytes_read < 2 ^ 31 →
      (hid_write s h io).ret = (io.bytes_read : Int) ∧
      (hid_read s h io).ret = (io.bytes_read : Int)) ∧
    (st.res = false →
      (hid_get_manufacturer_string s h st).ret = -1 ∧
      hid_error (hid_get_manufacturer_string s h st).state h = st.msg ∧
      (hid_get_product_string s h st).ret = -1 ∧
      hid_error (hid_get_product_string s h st).state h = st.msg ∧
      (hid_get_serial_number_string s h st).ret = -1 ∧
      hid_error (hid_get_serial_number_string s h st).state h = st.msg ∧
      (hid_get_indexed_string s h string_index st).ret = -1 ∧
      hid_error (hid_get_indexed_string s h string_index st).state h = st.msg) ∧
    (st.res = true →
      (hid_get_manufacturer_string s h st).ret = 0 ∧
      (hid_get_product_string s h st).ret = 0 ∧
      (hid_get_serial_number_string s h st).ret = 0 ∧
      (hid_get_indexed_string s h string_index st).ret = 0) := by
  refine ⟨fun hres => ?_, fun hres hsmall => ?_, fun hres => ?_, fun hres => ?_⟩
  · rw [hid_write_fail hv hres, hid_read_fail hv hres]
    exact ⟨rfl, hid_error_after_register hv _ _, rfl, hid_error_after_register hv _ _⟩
  · rw [hid_write_ok hv hres, hid_read_ok hv hres]
    exact ⟨int_of_DWORD_small hsmall, int_of_DWORD_small hsmall⟩
  · simp only [hid_get_manufacturer_string, hid_get_product_string,
      hid_get_serial_number_string, hid_get_indexed_string]
    rw [get_string_fail hv _ _ hres, get_string_fail hv _ _ hres, get_string_fail hv _ _ hres,
      get_string_fail hv _ _ hres]
    exact ⟨rfl, hid_error_after_register hv _ _, rfl, hid_error_after_register hv _ _,
      rfl, hid_error_after_register hv _ _, rfl, hid_error_after_register hv _ _⟩
  · simp only [hid_get_manufacturer_string, hid_get_product_string,
      hid_get_serial_number_string, hid_get_indexed_string]
    rw [get_string_ok hv _ _ hres, get_string_ok hv _ _ hres, get_string_ok hv _ _ hres,
      get_string_ok hv _ _ hres]
    exact ⟨rfl, rfl, rfl, rfl⟩

/-- Witness for C5 (as amended): on the valid handle 0 of `oneOpen` a failed
`WriteFile` whose message text is "E" gives -1 and that text from `hid_error`. -/
theorem os_failure_reported_witness :
    (0 ≤ (0 : Int) ∧ (0 : Int) < MAX_DEVICES ∧ (oneOpen.devices (slotOf 0)).valid ≠ 0) ∧
    (hid_write oneOpen 0 ⟨false, 0, some [69]⟩).ret = -1 ∧
    hid_error (hid_write oneOpen 0 ⟨false, 0, some [69]⟩).state 0 = some [69] :=
  ⟨by decide,
   ((os_failure_reported oneOpen 0 (by decide) ⟨false, 0, some [69]⟩ ⟨true, none⟩ 0).1 rfl).1,
   ((os_failure_reported oneOpen 0 (by decide) ⟨false, 0, some [69]⟩ ⟨true, none⟩ 0).1 rfl).2.1⟩

/-- Counterexample to C5 as stated: on the valid handle 0 of `oneOpen`, a failed
`WriteFile` for which `FormatMessage` leaves `msg` at `NULL` gives -1 and a null
`hid_error`; and a successful `WriteFile` reporting 2^31 bytes makes `hid_write`
return -2^31, not the reported count. -/
theorem os_failure_reported_counterexample :
    (0 ≤ (0 : Int) ∧ (0 : Int) < MAX_DEVICES ∧ (oneOpen.devices (slotOf 0)).valid ≠ 0) ∧
    (hid_write oneOpen 0 ⟨false, 0, none⟩).ret = -1 ∧
    hid_error (hid_write oneOpen 0 ⟨false, 0, none⟩).state 0 = none ∧
    (hid_write oneOpen 0 ⟨true, 2147483648, none⟩).ret = -2147483648 ∧
    (hid_write oneOpen 0 ⟨true, 2147483648, none⟩).ret ≠ 2147483648 := by
  decide

/-- C7: `hid_error` on a slot with no recorded failure returns null.  After any
sequence of calls from program start, under any answers of the system, for every
slot index `i` for which `register_error` never ran, `hid_error(i)` is null,
whether or not the slot is valid; and in any table `hid_error` is null for
every handle outside 0..63 and for every free slot. -/
theorem hid_error_null_without_failure :
    (∀ (ops : List Op) (i : Fin MAX_DEVICES), i ∉ errsOf boot ops →
      hid_error (run boot ops) (i.val : Int) = none ∧
      ((run boot ops).devices i).last_error = none) ∧
    (∀ (s : State) (h : Int),
      (h < 0 ∨ h ≥ MAX_DEVICES ∨ (s.devices (slotOf h)).valid = 0) → hid_error s h = none) := by
  refine ⟨fun ops i hi => ?_, fun s h hbad => hid_error_bad hbad⟩
  have hle : ((run boot ops).devices i).last_error = none :=
    last_error_run inv_boot ops i hi
  refine ⟨?_, hle⟩
  unfold hid_error
  split_ifs
  · rfl
  · rfl
  · rw [slotOf_cast]; exact hle

/-- Witness for C7: after a successful `hid_open` that returned 0 and recorded
no failure, slot 0 is valid and `hid_error(0)` is null. -/
theorem hid_error_null_without_failure_witness :
    (0 : Fin MAX_DEVICES) ∉ errsOf boot [Op.hid_open 0x04D8 0x3F none twoDevices] ∧
    ((run boot [Op.hid_open 0x04D8 0x3F none twoDevices]).devices 0).valid = 1 ∧
    hid_error (run boot [Op.hid_open 0x04D8 0x3F none twoDevices])
      (((0 : Fin MAX_DEVICES).val : Nat) : Int) = none :=
  ⟨by decide, by decide,
   (hid_error_null_without_failure.1 [Op.hid_open 0x04D8 0x3F none twoDevices] 0
      (by decide)).1⟩

/-- C8: a slot's stored message persists until the next error recorded on the
same slot.
(1) From every reachable table, over every further sequence of calls (whatever
they do to other slots, whether or not any slot is valid), the message of each
slot for which `register_error` did not run during that sequence is unchanged.
(2) In any table and for any handle, a successful `hid_write`, `hid_read` or
string getter leaves the whole table unchanged, and any `hid_write`, `hid_read`
or string getter, failed or not, leaves every slot other than the one it
addresses unchanged.
(3) In any table `hid_close` leaves every slot's message, and every slot other
than the one it addresses, unchanged.
(4) In every reachable table `hid_open` runs `register_error` only for the slot
it claims (the first free one) and leaves unchanged the message of every slot
for which it did not run it, the claimed slot included.
(5) After a failed `hid_write` on a valid handle `h`, the slot keeps the message
of that failure over every further sequence of calls that records no error on
it; in particular after `hid_close(h)` and a `hid_open` that returns `h` and
records no failure, `hid_error(h)` is the message of the failed write. -/
theorem error_message_persists :
    (∀ (before ops : List Op) (j : Fin MAX_DEVICES), j ∉ errsOf (run boot before) ops →
      ((run (run boot before) ops).devices j).last_error
        = ((run boot before).devices j).last_error) ∧
    (∀ (s : State) (h : Int) (io : IoOs) (st : StrOs) (string_index : Int),
      (io.res = true →
        (hid_write s h io).state = s ∧ (hid_read s h io).state = s) ∧
      (st.res = true →
        (hid_get_manufacturer_string s h st).state = s ∧
        (hid_get_product_string s h st).state = s ∧
        (hid_get_serial_number_string s h st).state = s ∧
        (hid_get_indexed_string s h string_index st).state = s) ∧
      (∀ j : Fin MAX_DEVICES, j ≠ slotOf h →
        (hid_write s h io).state.devices j = s.devices j ∧
        (hid_read s h io).state.devices j = s.devices j ∧
        (hid_get_manufacturer_string s h st).state.devices j = s.devices j ∧
        (hid_get_product_string s h st).state.devices j = s.devices j ∧
        (hid_get_serial_number_string s h st).state.devices j = s.devices j ∧
        (hid_get_indexed_string s h string_index st).state.devices j = s.devices j)) ∧
    (∀ (s : State) (d : Int) (j : Fin MAX_DEVICES),
      ((hid_close s d).state.devices j).last_error = (s.devices j).last_error ∧
      (j ≠ slotOf d → (hid_close s d).state.devices j = s.devices j)) ∧
    (∀ (ops : List Op) (v p : Nat) (sn : Option WString) (os : OpenOs) (j : Fin MAX_DEVICES),
      (j ∈ (hid_open (run boot ops) v p sn os).errs →
        ((run boot ops).devices j).valid = 0 ∧
        ∀ k, k < j → ((run boot ops).devices k).valid ≠ 0) ∧
      (j ∉ (hid_open (run boot ops) v p sn os).errs →
        ((hid_open (run boot ops) v p sn os).state.devices j).last_error
          = ((run boot ops).devices j).last_error)) ∧
    (∀ (before : List Op) (h : Int) (io : IoOs),
      (0 ≤ h ∧ h < MAX_DEVICES ∧ ((run boot before).devices (slotOf h)).valid ≠ 0) →
      io.res = false →
      (∀ ops : List Op, slotOf h ∉ errsOf (hid_write (run boot before) h io).state ops →
        ((run (hid_write (run boot before) h io).state ops).devices (slotOf h)).last_error
          = io.msg) ∧
      (∀ (v p : Nat) (sn : Option WString) (os : OpenOs),
        (hid_open (hid_close (hid_write (run boot before) h io).state h).state
          v p sn os).ret = h →
        (hid_open (hid_close (hid_write (run boot before) h io).state h).state
          v p sn os).errs = [] →
        hid_error (hid_open (hid_close (hid_write (run boot before) h io).state h).state
          v p sn os).state h = io.msg)) := by
  refine ⟨fun before ops j hj => last_error_run (inv_run inv_boot before) ops j hj,
    fun s h io st k => ⟨fun hres => ⟨hid_write_state_ok s h hres, hid_read_state_ok s h hres⟩,
      fun hres => ⟨get_string_state_ok s h _ _ hres, get_string_state_ok s h _ _ hres,
        get_string_state_ok s h _ _ hres, get_string_state_ok s h _ _ hres⟩,
      fun j hj => ⟨other_hid_write s h io j hj, other_hid_read s h io j hj,
        other_get_string s h _ _ st j hj, other_get_string s h _ _ st j hj,
        other_get_string s h _ _ st j hj, other_get_string s h _ _ st j hj⟩⟩,
    fun s d j => ⟨last_error_hid_close s d j, other_hid_close s d j⟩,
    fun ops v p sn os j =>
      ⟨hid_open_errs_slot (inv_run inv_boot ops) v p sn os j,
       hid_open_last_error (inv_run inv_boot ops) v p sn os j⟩, ?_⟩
  intro before h io hv hres
  have hs : Inv (run boot before) := inv_run inv_boot before
  have hs1 : Inv (hid_write (run boot before) h io).state := inv_hid_write hs h io
  have hw : ((hid_write (run boot before) h io).state.devices (slotOf h)).last_error
      = io.msg := by
    rw [hid_write_fail hv hres]
    simp [register_error]
  constructor
  · intro ops hno
    rw [last_error_run hs1 ops (slotOf h) hno]
    exact hw
  · intro v p sn os hret herrs
    have hs2 : Inv (hid_close (hid_write (run boot before) h io).state h).state :=
      inv_hid_close hs1 h
    have hle : ((hid_open (hid_close (hid_write (run boot before) h io).state h).state
        v p sn os).state.devices (slotOf h)).last_error = io.msg := by
      rw [hid_open_last_error hs2 v p sn os (slotOf h) (by rw [herrs]; simp),
        last_error_hid_close]
      exact hw
    have hval : ((hid_open (hid_close (hid_write (run boot before) h io).state h).state
        v p sn os).state.devices (slotOf h)).valid ≠ 0 := by
      rw [hid_open_valid hs2, hret, slotOf_val hv.1 hv.2.1]
      simp
    rw [hid_error_good ⟨hv.1, hv.2.1, hval⟩]
    exact hle

/-- Witness for C8: after an open and a failed write on handle 0 with message
"E", closing handle 0 and then a `hid_open` that finds no device (no slot is
valid during it) record no error on slot 0, and slot 0 still stores "E"; and
after the failed write, `hid_close(0)` and a successful `hid_open` that returns
0 again, `hid_error(0)` returns "E". -/
theorem error_message_persists_witness :
    ((0 : Fin MAX_DEVICES) ∉ errsOf
        (run boot [Op.hid_open 0x04D8 0x3F none twoDevices,
          Op.hid_write 0 ⟨false, 0, some [69]⟩])
        [Op.hid_close 0, Op.hid_open 0x04D8 0x3F (some [67]) twoDevices]) ∧
    ((run boot [Op.hid_open 0x04D8 0x3F none twoDevices,
        Op.hid_write 0 ⟨false, 0, some [69]⟩]).devices 0).last_error = some [69] ∧
    ((run (run boot [Op.hid_open 0x04D8 0x3F none twoDevices,
        Op.hid_write 0 ⟨false, 0, some [69]⟩])
        [Op.hid_close 0, Op.hid_open 0x04D8 0x3F (some [67]) twoDevices]).devices 0).last_error
      = ((run boot [Op.hid_open 0x04D8 0x3F none twoDevices,
          Op.hid_write 0 ⟨false, 0, some [69]⟩]).devices 0).last_error ∧
    (0 ≤ (0 : Int) ∧ (0 : Int) < MAX_DEVICES ∧
      ((run boot [Op.hid_open 0x04D8 0x3F none twoDevices]).devices (slotOf 0)).valid ≠ 0) ∧
    (hid_open (hid_close (hid_write (run boot [Op.hid_open 0x04D8 0x3F none twoDevices]) 0
      ⟨false, 0, some [69]⟩).state 0).state 0x04D8 0x3F (some [66]) twoDevices).ret = 0 ∧
    (hid_open (hid_close (hid_write (run boot [Op.hid_open 0x04D8 0x3F none twoDevices]) 0
      ⟨false, 0, some [69]⟩).state 0).state 0x04D8 0x3F (some [66]) twoDevices).errs = [] ∧
    hid_error (hid_open (hid_close (hid_write (run boot [Op.hid_open 0x04D8 0x3F none
      twoDevices]) 0 ⟨false, 0, some [69]⟩).state 0).state 0x04D8 0x3F (some [66])
      twoDevices).state 0 = some [69] :=
  ⟨by decide, by decide,
   error_message_persists.1
     [Op.hid_open 0x04D8 0x3F none twoDevices, Op.hid_write 0 ⟨false, 0, some [69]⟩]
     [Op.hid_close 0, Op.hid_open 0x04D8 0x3F (some [67]) twoDevices] 0 (by decide),
   by decide, by decide, by decide,
   ((error_message_persists.2.2.2.2 [Op.hid_open 0x04D8 0x3F none twoDevices] 0
      ⟨false, 0, some [69]⟩ (by decide) rfl).2
      0x04D8 0x3F (some [66]) twoDevices (by decide) (by decide))⟩

/-- C10: fate of rejected candidate connections in the scan of `hid_open`.  For
a candidate `c` whose path resolved and whose `CreateFile` succeeded:
(1) if its vendor/product ids do not match, the loop issues for it exactly the
calls listed, with `CloseHandle` on its connection once, and continues with the
next candidate;
(2) if they match and a serial `w` is requested but the serial query fails, or
the serial differs, the loop issues for it the calls listed, none of them a
`CloseHandle`, leaves the claimed slot's handle alone and continues;
(3) hence, when `hid_open` on a reachable table with a free slot reaches such a
candidate of case (2), and the system reuses the value of its handle neither for
a later candidate nor for the device-information set nor had it in a valid
slot, then after `hid_open` no slot holds that connection, and after the
`CreateFile` that opened it the call issues no `CloseHandle` on it. -/
theorem rejected_candidate_fate (v p : Nat) (sn : Option WString) (w : WString)
    (dev : Device) (k : Nat) (c : Candidate) (rest : List Candidate)
    (hd : c.detail_res = true) (ho : c.write_handle ≠ INVALID_HANDLE_VALUE) :
    (¬ (c.VendorID = v ∧ c.ProductID = p) →
      scan v p sn dev k (c :: rest) =
        ⟨(scan v p sn dev (k + 1) rest).dev,
         [OsCall.SetupDiEnumDeviceInterfaces k, OsCall.SetupDiGetDeviceInterfaceDetail,
          OsCall.SetupDiGetDeviceInterfaceDetail, OsCall.CreateFile c.write_handle,
          OsCall.HidD_GetAttributes c.write_handle, OsCall.CloseHandle c.write_handle]
           ++ (scan v p sn dev (k + 1) rest).calls,
         (scan v p sn dev (k + 1) rest).nerrs⟩) ∧
    (c.VendorID = v ∧ c.ProductID = p →
      (c.serial_res = false →
        scan v p (some w) dev k (c :: rest) =
          ⟨(scan v p (some w) { dev with last_error := c.msg } (k + 1) rest).dev,
           [OsCall.SetupDiEnumDeviceInterfaces k, OsCall.SetupDiGetDeviceInterfaceDetail,
            OsCall.SetupDiGetDeviceInterfaceDetail, OsCall.CreateFile c.write_handle,
            OsCall.HidD_GetAttributes c.write_handle,
            OsCall.HidD_GetSerialNumberString c.write_handle,
            OsCall.GetLastError, OsCall.FormatMessage, OsCall.LocalFree dev.last_error]
             ++ (scan v p (some w) { dev with last_error := c.msg } (k + 1) rest).calls,
           (scan v p (some w) { dev with last_error := c.msg } (k + 1) rest).nerrs + 1⟩) ∧
      (c.serial_res = true → cstr c.ser ≠ cstr w →
        scan v p (some w) dev k (c :: rest) =
          ⟨(scan v p (some w) dev (k + 1) rest).dev,
           [OsCall.SetupDiEnumDeviceInterfaces k, OsCall.SetupDiGetDeviceInterfaceDetail,
            OsCall.SetupDiGetDeviceInterfaceDetail, OsCall.CreateFile c.write_handle,
            OsCall.HidD_GetAttributes c.write_handle,
            OsCall.HidD_GetSerialNumberString c.write_handle]
             ++ (scan v p (some w) dev (k + 1) rest).calls,
           (scan v p (some w) dev (k + 1) rest).nerrs⟩) ∧
      (∀ (ops : List Op) (os : OpenOs) (pre : List Candidate),
        (∃ i, ((run boot ops).devices i).valid = 0) →
        os.candidates = pre ++ c :: rest →
        (∀ x ∈ pre, accepted v p (some w) x = false) →
        (c.serial_res = false ∨ cstr c.ser ≠ cstr w) →
        (∀ x ∈ rest, x.write_handle ≠ c.write_handle) →
        os.device_info_set ≠ c.write_handle →
        (∀ j, ((run boot ops).devices j).valid ≠ 0 →
          ((run boot ops).devices j).device_handle ≠ c.write_handle) →
        (∀ j, ((hid_open (run boot ops) v p (some w) os).state.devices j).device_handle
          ≠ c.write_handle) ∧
        ∃ a b, (hid_open (run boot ops) v p (some w) os).calls
            = a ++ OsCall.CreateFile c.write_handle :: b ∧
          OsCall.CloseHandle c.write_handle ∉ b)) := by
  refine ⟨fun hm => scan_cons_mismatch v p sn dev k c rest hd ho hm, fun hm =>
    ⟨fun hq => scan_cons_serial_fail v p w dev k c rest hd ho hm hq,
     fun hq hw => scan_cons_serial_differs v p w dev k c rest hd ho hm hq hw, ?_⟩⟩
  intro ops os pre hfree hcs hpre hrej hpost hdis hslots
  have hs : Inv (run boot ops) := inv_run inv_boot ops
  obtain ⟨i, hi, -, -⟩ := first_free hs hfree
  have hcacc : accepted v p (some w) c = false := not_accepted_of_serial hrej
  constructor
  · -- no slot holds the connection
    have hfound : ∀ x, os.candidates.find? (accepted v p (some w)) = some x →
        x.write_handle ≠ c.write_handle := by
      intro x hx
      have hxacc := List.find?_some hx
      have hxmem : x ∈ pre ++ c :: rest := hcs ▸ List.mem_of_find?_eq_some hx
      rcases List.mem_append.1 hxmem with hin | hin
      · rw [hpre x hin] at hxacc; exact absurd hxacc (by simp)
      · rcases List.mem_cons.1 hin with heq | hin2
        · rw [heq, hcacc] at hxacc; exact absurd hxacc (by simp)
        · exact hpost x hin2
    have hother : ∀ j, ((init_devices (run boot ops)).devices j).device_handle
        ≠ c.write_handle := by
      intro j
      rcases init_devices_handle hs j with h1 | ⟨h1, h2⟩
      · rw [h1]; exact fun h => ho h.symm
      · rw [h2]; exact hslots j h1
    intro j
    cases hc : os.candidates.find? (accepted v p (some w)) with
    | none =>
      rw [(hid_open_miss hs v p (some w) os hi hc).2.2]
      by_cases hj : j = i
      · subst hj; simp only [Function.update_same]; exact fun h => ho h.symm
      · rw [Function.update_noteq hj]; exact hother j
    | some x =>
      rw [(hid_open_hit hs v p (some w) os hi hc).2.2]
      by_cases hj : j = i
      · subst hj; simp only [Function.update_same]; exact hfound x hc
      · rw [Function.update_noteq hj]; exact hother j
  · -- the connection is never closed
    obtain ⟨own, dev2, n, -, -, hsplit⟩ :=
      scan_append_rejected v p (some w) pre (c :: rest) hpre
        { (init_devices (run boot ops)).devices i with valid := 1 } 0
    have hrestclose : ∀ d : Device,
        OsCall.CloseHandle c.write_handle ∉ (scan v p (some w) d (0 + pre.length + 1) rest).calls := by
      intro d hmem
      obtain ⟨x, hx, hxh⟩ := scan_close_mem v p (some w) rest d _ _ hmem
      exact hpost x hx hxh
    rw [hid_open_calls v p (some w) os hi, hcs, hsplit]
    by_cases hq : c.serial_res = true
    · have hw : cstr c.ser ≠ cstr w := by
        rcases hrej with h | h
        · rw [hq] at h; exact absurd h (by simp)
        · exact h
      rw [scan_cons_serial_differs v p w dev2 _ c rest hd ho hm hq hw]
      refine ⟨[OsCall.SetupDiGetClassDevs] ++ own ++
          [OsCall.SetupDiEnumDeviceInterfaces (0 + pre.length),
           OsCall.SetupDiGetDeviceInterfaceDetail, OsCall.SetupDiGetDeviceInterfaceDetail],
        [OsCall.HidD_GetAttributes c.write_handle,
          OsCall.HidD_GetSerialNumberString c.write_handle] ++
          (scan v p (some w) dev2 (0 + pre.length + 1) rest).calls ++
          [OsCall.CloseHandle os.device_info_set], by simp, ?_⟩
      have h1 := hrestclose dev2
      simp only [List.mem_append, List.mem_cons, List.mem_singleton, List.not_mem_nil,
        OsCall.CloseHandle.injEq, not_or, or_false]
      exact ⟨⟨⟨by simp, by simp⟩, h1⟩, fun h => hdis h.symm⟩
    · have hq2 : c.serial_res = false := by simpa using hq
      rw [scan_cons_serial_fail v p w dev2 _ c rest hd ho hm hq2]
      refine ⟨[OsCall.SetupDiGetClassDevs] ++ own ++
          [OsCall.SetupDiEnumDeviceInterfaces (0 + pre.length),
           OsCall.SetupDiGetDeviceInterfaceDetail, OsCall.SetupDiGetDeviceInterfaceDetail],
        [OsCall.HidD_GetAttributes c.write_handle,
          OsCall.HidD_GetSerialNumberString c.write_handle,
          OsCall.GetLastError, OsCall.FormatMessage, OsCall.LocalFree dev2.last_error] ++
          (scan v p (some w) { dev2 with last_error := c.msg } (0 + pre.length + 1) rest).calls ++
          [OsCall.CloseHandle os.device_info_set], by simp, ?_⟩
      have h1 := hrestclose { dev2 with last_error := c.msg }
      simp only [List.mem_append, List.mem_cons, List.mem_singleton, List.not_mem_nil,
        OsCall.CloseHandle.injEq, not_or, or_false]
      exact ⟨⟨⟨by simp, by simp, by simp, by simp, by simp⟩, h1⟩, fun h => hdis h.symm⟩

/-- C9: the slot invariant.  (1) In every table reached by a sequence of calls
that contains a `hid_open`, for each of the 64 slots the valid flag is set
if and only if the slot's connection handle differs from
`INVALID_HANDLE_VALUE`.  (2) Every operation, from any initialised table that
satisfies this invariant, leads to an initialised table that satisfies it.
(3) The handle of a valid slot is a value a `CreateFile` of the run returned,
and is not the sentinel.  (4) When the system keeps handle values apart (see
`osSane`), the handle of a valid slot is open after the run and no two valid
slots hold the same one. -/
theorem slot_invariant :
    (∀ (pre post : List Op) (v p : Nat) (sn : Option WString) (os : OpenOs)
      (i : Fin MAX_DEVICES),
      ((run boot (pre ++ Op.hid_open v p sn os :: post)).devices i).valid ≠ 0 ↔
      ((run boot (pre ++ Op.hid_open v p sn os :: post)).devices i).device_handle
        ≠ INVALID_HANDLE_VALUE) ∧
    (∀ (s : State) (op : Op), s.devices_initialized ≠ 0 → SlotInv s →
      (exec s op).state.devices_initialized ≠ 0 ∧ SlotInv (exec s op).state) ∧
    (∀ (ops : List Op) (i : Fin MAX_DEVICES), ((run boot ops).devices i).valid ≠ 0 →
      OsCall.CreateFile ((run boot ops).devices i).device_handle ∈ callsOf boot ops ∧
      ((run boot ops).devices i).device_handle ≠ INVALID_HANDLE_VALUE) ∧
    (∀ (ops : List Op), osSane boot [] ops = true →
      ∀ i : Fin MAX_DEVICES, ((run boot ops).devices i).valid ≠ 0 →
        ((run boot ops).devices i).device_handle ∈ openAfter [] (callsOf boot ops) ∧
        ∀ j : Fin MAX_DEVICES, ((run boot ops).devices j).valid ≠ 0 →
          ((run boot ops).devices j).device_handle = ((run boot ops).devices i).device_handle →
          j = i) := by
  refine ⟨?_, ?_, ?_, ?_⟩
  · intro pre post v p sn os i
    have h1 : Inv (run boot pre) := inv_run inv_boot pre
    have h2 := inv_hid_open h1 v p sn os
    have h3 : Inv (run boot (pre ++ Op.hid_open v p sn os :: post)) := inv_run inv_boot _
    have h4 : (run boot (pre ++ Op.hid_open v p sn os :: post)).devices_initialized ≠ 0 := by
      rw [run_append]
      exact initialized_run post h2.1 h2.2
    exact h3.2 h4 i
  · intro s op h0 hsl
    have hs := inv_of_slotInv h0 hsl
    have h1 := initialized_exec hs h0 op
    exact ⟨h1, (inv_exec hs op).2 h1⟩
  · intro ops i hv
    have hs : Inv (run boot ops) := inv_run inv_boot ops
    have hinit : (run boot ops).devices_initialized ≠ 0 := fun h0 => hv (hs.1 h0 i).1
    refine ⟨?_, (hs.2 hinit i).1 hv⟩
    rcases created_run ops inv_boot i hv with ⟨h1, -⟩ | h1
    · exact absurd rfl h1
    · exact h1
  · intro ops hsane i hv
    have hl := live_run ops inv_boot live_boot hsane
    exact ⟨hl.1 i hv, fun j hvj heq => hl.2.1 j i hvj hv heq⟩

set_option maxRecDepth 100000 in
/-- Witness for C9: in `sampleRun` the system keeps handle values apart; after
it slot 1 is valid and holds the open connection 104 of device "B". -/
theorem slot_invariant_witness :
    osSane boot [] sampleRun = true ∧
    ((run boot sampleRun).devices 1).valid ≠ 0 ∧
    ((run boot sampleRun).devices 1).device_handle = 104 ∧
    ((run boot sampleRun).devices 1).device_handle ∈ openAfter [] (callsOf boot sampleRun) :=
  ⟨by decide, by decide, by decide,
   (slot_invariant.2.2.2 sampleRun (by decide) 1 (by decide)).1⟩

/-- Witness for C10: devices "A" then "B", serial "B" requested on the fresh
table.  "A" matches vendor and product but not the serial: after `hid_open` no
slot holds its connection 100, and no `CloseHandle` on it was issued after the
`CreateFile` that opened it. -/
theorem rejected_candidate_fate_witness :
    (deviceA.detail_res = true ∧ deviceA.write_handle ≠ INVALID_HANDLE_VALUE) ∧
    (deviceA.VendorID = 0x04D8 ∧ deviceA.ProductID = 0x3F) ∧
    (deviceA.serial_res = false ∨ cstr deviceA.ser ≠ cstr [66]) ∧
    (∀ j, ((hid_open (run boot []) 0x04D8 0x3F (some [66]) twoDevices).state.devices j).device_handle
      ≠ deviceA.write_handle) ∧
    ∃ a b, (hid_open (run boot []) 0x04D8 0x3F (some [66]) twoDevices).calls
        = a ++ OsCall.CreateFile deviceA.write_handle :: b ∧
      OsCall.CloseHandle deviceA.write_handle ∉ b :=
  ⟨by decide, by decide, by decide,
   ((rejected_candidate_fate 0x04D8 0x3F (some [66]) [66] ⟨1, INVALID_HANDLE_VALUE, none⟩ 0
      deviceA [deviceB] (by decide) (by decide)).2 (by decide)).2.2
      [] twoDevices [] ⟨0, rfl⟩ rfl (by simp) (by decide) (by decide) (by decide)
      (fun j h => absurd rfl h)⟩

end Hid
